import Mathlib

/-!
Verification development for the `ora` Oracle driver core:
environment lifecycle (Close / OpenSrv / OpenCon / SetCfg / Cfg / NumSrv /
NumCon, the process-wide charset cache) and the typed binder variants
(bndBin, bndFloat32, bndFloat64, bndUint64).

The Go source is shallowly embedded: native OCI calls are modelled by
oracles recording their outcomes, mutation is explicit state passing, and
each public operation additionally emits a trace of the observable events
(native calls, child closes, charset-cache lock/unlock, metadata query) so
that ordering and lock-scope properties can be stated.
-/

deriving instance DecidableEq for Except

namespace Ora

/-! ## Error model

`errE` wrapping (call-site decoration) is ignored; what is kept is the
error kind and its message.  `BErr` is a base (non-aggregate) error;
`OErr` is either a base error or the aggregate built by `newMultiErrL`
from the list of child errors collected during `Env.Close`. -/

/-- Base (non-aggregate) error kinds of the driver: a native OCI failure
carrying the native error text, the closed-resource error from
`checkClosed`, an invalid-argument error from `er(...)`, and a recovered
panic converted by `errR`. -/
inductive BErr where
  | native (msg : String)
  | closedRes (msg : String)
  | invalidArg (msg : String)
  | recovered (msg : String)
deriving DecidableEq

/-- A driver error: either a base error or the aggregate of the child
errors collected by `Env.Close` (built by `newMultiErrL`). -/
inductive OErr where
  | base (e : BErr)
  | multi (errs : List BErr)
deriving DecidableEq

/-! ## Go character classes and string helpers used by `Env.OpenCon`

`strings.TrimSpace` trims `unicode.IsSpace` characters — the Unicode
White_Space property: U+0009–U+000D, U+0020, U+0085, U+00A0, U+1680,
U+2000–U+200A, U+2028, U+2029, U+202F, U+205F, U+3000.  The `fmt`
scanner's `space` table lists exactly the same ranges, and its notion of
space during format processing ("any Unicode white space character
except newline") is `isScanSpace`. -/

/-- Go `unicode.IsSpace` (what `strings.TrimSpace` trims), which is also
the character set of the `fmt` package's `space` table: the Unicode
White_Space code points. -/
def isGoSpace (c : Char) : Bool :=
  (9 ≤ c.toNat && c.toNat ≤ 13) || c.toNat = 32 || c.toNat = 0x85 ||
  c.toNat = 0xA0 || c.toNat = 0x1680 || (0x2000 ≤ c.toNat && c.toNat ≤ 0x200A) ||
  c.toNat = 0x2028 || c.toNat = 0x2029 || c.toNat = 0x202F || c.toNat = 0x205F ||
  c.toNat = 0x3000

/-- The `fmt` scanner's space class: white space except newline. -/
def isScanSpace (c : Char) : Bool :=
  isGoSpace c && !(c = '\n')

/-- Go `strings.TrimSpace` on a character list. -/
def trimSpace (l : List Char) : List Char :=
  ((l.dropWhile isGoSpace).reverse.dropWhile isGoSpace).reverse

/-- Go `strings.Replace(s, string(old), " " + string(old) + " ", 1)`:
replace the first occurrence of the (single-character) pattern `old`,
padding it with one space on each side.  This is exactly what
`Env.OpenCon` does to the first `/` and the first `@`. -/
def replaceFirstPad (old : Char) : List Char → List Char
  | [] => []
  | c :: rest =>
    if c = old then ' ' :: c :: ' ' :: rest else c :: replaceFirstPad old rest

/-! ## The `fmt.Sscanf(str, "%s / %s @ %s", ...)` scanner

Per the Go `fmt` scanning rules:
* `%s` first discards leading (non-newline) spaces, then consumes the
  maximal run of characters up to the first space or newline; an empty
  token is an error (`unexpected EOF` / `unexpected newline`);
* a run of spaces in the format consumes as many input spaces as possible
  and must consume at least one or find the end of the input;
* any other format character must match the next input character exactly.
Input remaining after the format is exhausted is not an error. -/

/-- One `%s` verb: discard leading scan-spaces, take the maximal run of
non-space characters; fail if that run is empty. -/
def scanToken (l : List Char) : Option (List Char × List Char) :=
  let rest := l.dropWhile isScanSpace
  let tok := rest.takeWhile (fun c => !(isGoSpace c))
  if tok.isEmpty then none else some (tok, rest.dropWhile (fun c => !(isGoSpace c)))

/-- One run of spaces in the format: consume as many scan-spaces as
possible; succeed only if at least one was consumed or the end of the
input was found. -/
def scanSpaceRun (l : List Char) : Option (List Char) :=
  let rest := l.dropWhile isScanSpace
  if rest.length < l.length || rest.isEmpty then some rest else none

/-- One literal (non-space, non-verb) format character: the next input
character must be exactly `c`. -/
def scanLit (c : Char) (l : List Char) : Option (List Char) :=
  match l with
  | [] => none
  | c' :: rest => if c' = c then some rest else none

/-- `fmt.Sscanf(l, "%s / %s @ %s", &username, &password, &dblink)`:
returns the three tokens when all three verbs and both literals match
(`err == nil` in Go), `none` when Go would report a scan error. -/
def sscanfUPL (l : List Char) : Option (List Char × List Char × List Char) := do
  let (u, l1) ← scanToken l
  let l2 ← scanSpaceRun l1
  let l3 ← scanLit '/' l2
  let l4 ← scanSpaceRun l3
  let (p, l5) ← scanToken l4
  let l6 ← scanSpaceRun l5
  let l7 ← scanLit '@' l6
  let l8 ← scanSpaceRun l7
  let (d, _) ← scanToken l8
  pure (u, p, d)

/-- The three parsed components of a connection string. -/
structure ConnParams where
  username : List Char
  password : List Char
  dblink : List Char
deriving DecidableEq

/-- The connection-string parsing performed at the top of `Env.OpenCon`:
trim the input, special-case the external-authentication form starting
with `/@`, otherwise pad the first `/` and the first `@` with spaces and
scan with `fmt.Sscanf(str, "%s / %s @ %s", ...)`.  A scan failure is
returned (wrapped by `errE`); it is the invalid-argument kind of the
error taxonomy. -/
def parseConnStr (l : List Char) : Except OErr ConnParams :=
  let s := trimSpace l
  match s with
  | '/' :: '@' :: rest => .ok ⟨[], [], rest⟩
  | _ =>
    let s1 := replaceFirstPad '/' s
    let s2 := replaceFirstPad '@' s1
    match sscanfUPL s2 with
    | some (u, p, d) => .ok ⟨u, p, d⟩
    | none => .error (.base (.invalidArg "parse error"))

/-! ## Environment model

`Env` (env.go) owns the native context handle (`ocienv`), the native
error handle (`ocierr`), its element in the process-wide `_drv.openEnvs`
list, the configuration (whose only field is the `*StmtCfg` pointer) and
the ordered `openSrvs` / `openCons` collections.  Pointers to `StmtCfg`
values are modelled as addresses into an explicit `Heap`; native handles
as booleans (present / nil).  A child's `Close()` behaviour and each
native call's outcome are oracles supplied as inputs.  The mutex is not
modelled (sequential semantics); lock/unlock of the charset cache mutex
is recorded as trace events because claim C9 is about its scope. -/

/-- Observable events of an `Env` operation, in program order: closing the
i-th open connection / server, freeing the env handle, the native calls of
`OpenSrv`, the `OpenSes` call, and the charset-cache critical section
events of `OpenCon`. -/
inductive Ev where
  | conClose (i : Nat)
  | srvClose (i : Nat)
  | freeEnvHandle
  | allocHandle
  | serverAttach
  | setAttrCall
  | openSes
  | lockCharset
  | charsetQuery
  | unlockCharset
deriving DecidableEq

/-- Behaviour of one child's `Close()` call: returns nil, returns an
error, or panics with a value (its text). -/
inductive CloseOutcome where
  | ok
  | err (e : BErr)
  | panicWith (v : String)
deriving DecidableEq

/-- A heap of `StmtCfg` values (modelled as opaque scalars: only value
identity matters for the copy-vs-share claims).  `store` maps addresses
to values, `next` is the next fresh address. -/
structure Heap where
  store : Nat → Nat
  next : Nat

/-- Mutate the cell at address `a` (how a caller would change the
environment's default `StmtCfg` in place through its pointer). -/
def Heap.write (h : Heap) (a v : Nat) : Heap :=
  ⟨fun x => if x = a then v else h.store x, h.next⟩

/-- An open server as `Env` sees it: its `cfg.StmtCfg` pointer, its
database-charset flag `dbIsUTF8`, and the oracle for what its `Close()`
will do. -/
structure Srv where
  cfgStmt : Option Nat
  dbIsUTF8 : Bool
  onClose : CloseOutcome
deriving DecidableEq

/-- An open connection as `Env` sees it: the oracle for its `Close()`. -/
structure Con where
  onClose : CloseOutcome
deriving DecidableEq

/-- The environment state: native context / error handles (present or
nil), membership in `_drv.openEnvs`, the `cfg.StmtCfg` pointer, the two
open collections, and whether the object has been returned to
`_drv.envPool`. -/
structure Env where
  ocienv : Bool
  ocierr : Bool
  elem : Bool
  cfgStmt : Option Nat
  openSrvs : List Srv
  openCons : List Con
  pooled : Bool
deriving DecidableEq

/-- env.go `NumSrv`: the length of the open-server collection. -/
def Env.NumSrv (env : Env) : Nat := env.openSrvs.length

/-- env.go `NumCon`: the length of the open-connection collection. -/
def Env.NumCon (env : Env) : Nat := env.openCons.length

/-- env.go `SetCfg`: `env.cfg = *cfg`, with no closed-check and no error
return (the method has no return value). -/
def Env.SetCfg (env : Env) (cfgStmt : Option Nat) : Env :=
  { env with cfgStmt := cfgStmt }

/-- env.go `Cfg`: returns `&env.cfg` (observed here as the `StmtCfg`
pointer it holds); no closed-check, no error return. -/
def Env.Cfg (env : Env) : Option Nat := env.cfgStmt

/-- env.go `checkClosed`: fails when the receiver is nil or `ocienv` is
nil (receiver nilness is not representable here; `ocienv` is). -/
def Env.checkClosed (env : Env) : Option BErr :=
  if env.ocienv then none else some (.closedRes "Env is closed.")

/-! ### Env.Close -/

/-- One `for e := ...; e = e.Next()` close loop of `Env.Close` over the
children's close outcomes, numbering children from `i`: returns the trace
of close calls actually made, the non-nil errors pushed onto `errs` (in
order), and the value of the first panic if one occurred (which aborts
the loop; the panic unwinds to the deferred recover). -/
def closeLoop (mk : Nat → Ev) : List CloseOutcome → Nat → List Ev × List BErr × Option String
  | [], _ => ([], [], none)
  | .ok :: rest, i =>
    (mk i :: (closeLoop mk rest (i + 1)).1,
     (closeLoop mk rest (i + 1)).2.1,
     (closeLoop mk rest (i + 1)).2.2)
  | .err e :: rest, i =>
    (mk i :: (closeLoop mk rest (i + 1)).1,
     e :: (closeLoop mk rest (i + 1)).2.1,
     (closeLoop mk rest (i + 1)).2.2)
  | .panicWith v :: _, i => ([mk i], [], some v)

/-- Result of `Env.Close`: the returned error, the final state of the
environment object, and the event trace. -/
structure CloseRes where
  ret : Option OErr
  env : Env
  trace : List Ev
deriving DecidableEq

/-- The deferred function at the top of `Env.Close`: recover a panic into
`errs` (appended last, as `PushBack` does), then unconditionally remove
the env from `_drv.openEnvs`, nil both native handles, `Init()` both open
collections, put the env back into `_drv.envPool`, and replace the named
return value with the aggregate `newMultiErrL(errs)` when that is non-nil.

`newMultiErrL` itself is not under src/.  Modelled from the spec:
"ErrorAggregator — merges zero-or-more child errors into a single
composite error or nil", i.e. nil for an empty list and an aggregate
reporting exactly the collected errors otherwise. -/
def closeFinish (env : Env) (trace : List Ev) (errs : List BErr)
    (panicVal : Option String) (bodyRet : Option OErr) : CloseRes :=
  let errs' := match panicVal with
    | some v => errs ++ [.recovered v]
    | none => errs
  let env' := { env with
    ocienv := false, ocierr := false, elem := false,
    openSrvs := [], openCons := [], pooled := true }
  let ret := if errs'.isEmpty then bodyRet else some (.multi errs')
  ⟨ret, env', trace⟩

/-- env.go `Env.Close`, given the outcome `freeRes` that
`freeOciHandle(env.ocienv, OCI_HTYPE_ENV)` would report: checkClosed
guard; close every open connection, then every open server, pushing each
non-nil error; free the native context handle last; the deferred block
(`closeFinish`) recovers a panic and always performs the terminal
bookkeeping.  A panic in a child's `Close` aborts the loops (no further
child is closed and the handle free is not reached), exactly as a Go
panic unwinds to the deferred recover. -/
def Env.Close (env : Env) (freeRes : Option BErr) : CloseRes :=
  match env.checkClosed with
  | some e => ⟨some (.base e), env, []⟩
  | none =>
    let rc := closeLoop Ev.conClose (env.openCons.map Con.onClose) 0
    match rc.2.2 with
    | some v => closeFinish env rc.1 rc.2.1 (some v) none
    | none =>
      let rs := closeLoop Ev.srvClose (env.openSrvs.map Srv.onClose) 0
      match rs.2.2 with
      | some v => closeFinish env (rc.1 ++ rs.1) (rc.2.1 ++ rs.2.1) (some v) none
      | none =>
        closeFinish env (rc.1 ++ rs.1 ++ [.freeEnvHandle]) (rc.2.1 ++ rs.2.1) none
          (freeRes.map .base)

/-! ### Env.OpenSrv -/

/-- Outcomes of the native calls made by `OpenSrv` (allocate server
handle, `OCIServerAttach`, allocate service-context handle,
`OCIAttrSet`), plus the close-behaviour oracle for the server being
opened. -/
structure SrvOracle where
  allocSrvFails : Bool
  attachErr : Option String
  allocSvcFails : Bool
  setAttrErr : Option String
  newSrvOnClose : CloseOutcome
deriving DecidableEq

/-- The `SrvCfg` fields `OpenSrv` reads: the dblink and the `*StmtCfg`
pointer. -/
structure SrvCfgM where
  dblink : List Char
  stmtCfg : Option Nat
deriving DecidableEq

/-- Result of `Env.OpenSrv`: the returned server or error, the final
environment and heap, and the native-call trace. -/
structure OpenSrvRes where
  ret : Except OErr Srv
  env : Env
  heap : Heap
  trace : List Ev

/-- env.go `Env.OpenSrv`: checkClosed guard; nil-cfg guard; allocate the
server handle; attach; allocate the service-context handle; set the
server attribute; check a `Srv` out of the pool, append it to
`env.openSrvs`, copy `*cfg` into it, and — when the copied cfg carries no
`StmtCfg` but the environment's does — run
`srv.cfg.StmtCfg = &(*srv.env.cfg.StmtCfg)`.  In Go `&(*p)` is the very
same pointer `p` (no copy is made, despite the adjacent source comment
"copy by value so that user may change independently"), so the server
ends up sharing the environment's `StmtCfg` pointer.  The pooled
server's `dbIsUTF8` starts at the Bool zero value `false` (the field is
assigned only later, by `OpenCon`'s charset detection). -/
def Env.OpenSrv (env : Env) (h : Heap) (cfg : Option SrvCfgM) (o : SrvOracle) :
    OpenSrvRes :=
  match env.checkClosed with
  | some e => ⟨.error (.base e), env, h, []⟩
  | none =>
    match cfg with
    | none => ⟨.error (.base (.invalidArg "Parameter cfg may not be nil.")), env, h, []⟩
    | some cfg =>
      if o.allocSrvFails then
        ⟨.error (.base (.native "Unable to allocate handle")), env, h, [.allocHandle]⟩
      else
        match o.attachErr with
        | some m => ⟨.error (.base (.native m)), env, h, [.allocHandle, .serverAttach]⟩
        | none =>
          if o.allocSvcFails then
            ⟨.error (.base (.native "Unable to allocate handle")), env, h,
              [.allocHandle, .serverAttach, .allocHandle]⟩
          else
            match o.setAttrErr with
            | some m =>
              ⟨.error (.base (.native m)), env, h,
                [.allocHandle, .serverAttach, .allocHandle, .setAttrCall]⟩
            | none =>
              let stmtPtr : Option Nat :=
                match cfg.stmtCfg, env.cfgStmt with
                | none, some p => some p
                | pc, _ => pc
              let srv : Srv := ⟨stmtPtr, false, o.newSrvOnClose⟩
              ⟨.ok srv, { env with openSrvs := env.openSrvs ++ [srv] }, h,
                [.allocHandle, .serverAttach, .allocHandle, .setAttrCall]⟩

/-! ### Env.OpenCon and the charset cache -/

/-- Outcome of `ses.PrepAndQry` for the `NLS_CHARACTERSET` metadata
query: the query fails; it succeeds but yields no usable single-string
row; or it yields the character-set name `cs`. -/
inductive QueryRes where
  | qerr
  | noRow
  | row (cs : String)
deriving DecidableEq

/-- Lookup in the process-wide `conCharset` map, keyed by dblink. -/
def charsetLookup (cache : List (List Char × String)) (d : List Char) : Option String :=
  match cache with
  | [] => none
  | (k, v) :: rest => if k = d then some v else charsetLookup rest d

/-- Result of the charset critical section: the `dbIsUTF8` assignment
performed on the connection's server (if any), the cache afterwards, and
the trace of the section. -/
structure CharsetRes where
  flagSet : Option Bool
  cache : List (List Char × String)
  trace : List Ev
deriving DecidableEq

/-- The tail of env.go `OpenCon` guarded by `conCharsetMu`: lock (with the
unlock deferred to function exit); on a cache hit assign
`srv.dbIsUTF8 = cs == "AL32UTF8"` and return; on a miss issue the
metadata query while still holding the lock; on a failed or unusable
query assign nothing and cache nothing; on a usable row cache it and
assign the flag. -/
def charsetSection (cache : List (List Char × String)) (d : List Char)
    (q : QueryRes) : CharsetRes :=
  match charsetLookup cache d with
  | some cs => ⟨some (cs == "AL32UTF8"), cache, [.lockCharset, .unlockCharset]⟩
  | none =>
    match q with
    | .qerr => ⟨none, cache, [.lockCharset, .charsetQuery, .unlockCharset]⟩
    | .noRow => ⟨none, cache, [.lockCharset, .charsetQuery, .unlockCharset]⟩
    | .row cs =>
      ⟨some (cs == "AL32UTF8"), cache ++ [(d, cs)],
        [.lockCharset, .charsetQuery, .unlockCharset]⟩

/-- Oracles for one `OpenCon` call: the nested `OpenSrv` native outcomes,
the `srv.OpenSes` outcome, the metadata-query outcome, and the
close-behaviour oracle of the connection being opened. -/
structure ConOracle where
  srvO : SrvOracle
  openSesErr : Option BErr
  queryRes : QueryRes
  newConOnClose : CloseOutcome
deriving DecidableEq

/-- Result of `Env.OpenCon`: on success the payload is the `dbIsUTF8`
flag of the connection's server; plus the final environment, heap, charset
cache, and event trace. -/
structure OpenConRes where
  ret : Except OErr Bool
  env : Env
  heap : Heap
  cache : List (List Char × String)
  trace : List Ev

/-- env.go `Env.OpenCon`: checkClosed (without taking the env lock);
parse the connection string; `OpenSrv` with a fresh `SrvCfg` carrying the
parsed dblink; `OpenSes` with the parsed credentials (a failure leaves
the just-opened server registered); check a `Con` out of the pool and
append it to `env.openCons`; then the charset critical section
(`charsetSection`), whose flag assignment mutates the server object that
`OpenSrv` appended last to `env.openSrvs`. -/
def Env.OpenCon (env : Env) (h : Heap) (cache : List (List Char × String))
    (str : List Char) (o : ConOracle) : OpenConRes :=
  match env.checkClosed with
  | some e => ⟨.error (.base e), env, h, cache, []⟩
  | none =>
    match parseConnStr str with
    | .error e => ⟨.error e, env, h, cache, []⟩
    | .ok prm =>
      let r := env.OpenSrv h (some ⟨prm.dblink, none⟩) o.srvO
      match r.ret with
      | .error e => ⟨.error e, r.env, r.heap, cache, r.trace⟩
      | .ok srv =>
        match o.openSesErr with
        | some e => ⟨.error (.base e), r.env, r.heap, cache, r.trace ++ [.openSes]⟩
        | none =>
          let con : Con := ⟨o.newConOnClose⟩
          let env2 := { r.env with openCons := r.env.openCons ++ [con] }
          let cr := charsetSection cache prm.dblink o.queryRes
          let flag := cr.flagSet.getD srv.dbIsUTF8
          let srv' := { srv with dbIsUTF8 := flag }
          let env3 := { env2 with openSrvs := env2.openSrvs.dropLast ++ [srv'] }
          ⟨.ok flag, env3, r.heap, cr.cache, r.trace ++ [.openSes] ++ cr.trace⟩

/-- Whether a `charsetQuery` event occurs while the charset-cache lock is
held, scanning a trace with `held` as the lock state. -/
def queryUnderLock (held : Bool) : List Ev → Bool
  | [] => false
  | e :: rest =>
    match e with
    | .lockCharset => queryUnderLock true rest
    | .unlockCharset => queryUnderLock false rest
    | .charsetQuery => held || queryUnderLock held rest
    | _ => queryUnderLock held rest

/-! ## Binder variants

bndBin.go, bndFloat32 (same file), bndFloat64.go, bndUint64.go.  A
binder's back-reference to its statement is modelled as an optional
statement id; the native bind handle as a boolean.  The outcomes of the
native conversion (`OCINumberFromReal` / `OCINumberFromInt`) and of
`OCIBindByPos` are oracles; the native calls actually issued, with the
arguments the claims speak about (byte width, signedness flag, position,
datatype tag), are recorded as a trace. -/

/-- The native datatype tags used by these binders: `SQLT_LBI`
(raw binary long) for `bndBin`, `SQLT_VNU` (native `OCINumber`) for the
numeric variants. -/
inductive Dty where
  | SQLT_LBI
  | SQLT_VNU
deriving DecidableEq

/-- Native calls a `bind` issues, with the claim-relevant arguments:
`OCINumberFromReal(err, &value, width, &ociNumber)`,
`OCINumberFromInt(err, &value, width, signFlag, &ociNumber)`, and
`OCIBindByPos(stmt, &ocibnd, err, position, valuep, size, dty, ...)`. -/
inductive NEv where
  | numberFromReal (width : Nat)
  | numberFromInt (width : Nat) (unsigned : Bool)
  | bindByPos (position : Nat) (dty : Dty)
deriving DecidableEq

/-- Outcome of a `bind` call: nil, an error return, or an unrecovered
runtime panic (only `bndBin.bind` on an empty slice can panic). -/
inductive BindRet where
  | ok
  | err (e : BErr)
  | panicked (msg : String)
deriving DecidableEq

/-- Outcomes of the native calls a `bind` makes: the numeric conversion
and the bind-by-position registration (`some m` = `OCI_ERROR` whose
`ociError()` text is `m`). -/
structure BindOracle where
  numConvErr : Option String
  bindErr : Option String
deriving DecidableEq

/-- Outcome of `stmt.putBnd(idx, bnd)` during a binder's `close`. -/
inductive PutBndOutcome where
  | ok
  | panicWith (v : String)
deriving DecidableEq

/-- The type tags (`bndIdxBin`, `bndIdxFloat32`, `bndIdxFloat64`,
`bndIdxUint64`) keying the statement's binder pools. -/
inductive BndIdx where
  | bin
  | float32
  | float64
  | uint64
deriving DecidableEq

/-- Result of a binder's `close`: the returned error, the pool the binder
was handed to, and the binder value at the moment of the hand-back. -/
structure BndCloseRes (α : Type) where
  ret : Option BErr
  pooledIdx : BndIdx
  pooledBnd : α
deriving DecidableEq

/-- Result of a binder's `bind`: the return value, the binder afterwards,
and the native calls issued. -/
structure BindRes (α : Type) where
  ret : BindRet
  bnd : α
  trace : List NEv
deriving DecidableEq

/-- bndBin.go `bndBin`: statement back-reference and native bind handle
(no `ociNumber` buffer — it registers the raw bytes). -/
structure bndBin where
  stmt : Option Nat
  ocibnd : Bool
deriving DecidableEq

/-- bndBin.go `bndBin.bind`: record the statement, then call
`OCIBindByPos` registering `&value[0]` with length `len(value)` and tag
`SQLT_LBI`.  Evaluating `&value[0]` on an empty slice panics (index out
of range) before the native call; the panic is not recovered in `bind`. -/
def bndBin.bind (bnd : bndBin) (value : List Nat) (position : Nat)
    (stmtId : Nat) (o : BindOracle) : BindRes bndBin :=
  let bnd' := { bnd with stmt := some stmtId }
  if value.isEmpty then
    ⟨.panicked "index out of range", bnd', []⟩
  else
    match o.bindErr with
    | some m => ⟨.err (.native m), bnd', [.bindByPos position .SQLT_LBI]⟩
    | none => ⟨.ok, bnd', [.bindByPos position .SQLT_LBI]⟩

/-- bndBin.go `bndBin.close`: save the back-reference, clear it, hand the
binder to `stmt.putBnd(bndIdxBin, bnd)` (the `ocibnd` field is not
cleared by this variant); a panic in the hand-back is recovered by the
deferred block into the returned error `errR(value)`. -/
def bndBin.close (bnd : bndBin) (putB : PutBndOutcome) : BndCloseRes bndBin :=
  let bnd' := { bnd with stmt := none }
  match putB with
  | .ok => ⟨none, .bin, bnd'⟩
  | .panicWith v => ⟨some (.recovered v), .bin, bnd'⟩

/-- bndFloat32.go `bndFloat32`: statement back-reference, native bind
handle, and the `ociNumber` conversion buffer (opaque; not modelled
beyond the calls that fill it). -/
structure bndFloat32 where
  stmt : Option Nat
  ocibnd : Bool
deriving DecidableEq

/-- bndFloat32.go `bndFloat32.bind`: record the statement (after a debug
log of the position, which is not modelled); convert with
`OCINumberFromReal(..., 4, &ociNumber)` (width 4); on success register
`&ociNumber` at `position` with tag `SQLT_VNU` via `OCIBindByPos2`. -/
def bndFloat32.bind (bnd : bndFloat32) (position : Nat) (stmtId : Nat)
    (o : BindOracle) : BindRes bndFloat32 :=
  let bnd' := { bnd with stmt := some stmtId }
  match o.numConvErr with
  | some m => ⟨.err (.native m), bnd', [.numberFromReal 4]⟩
  | none =>
    match o.bindErr with
    | some m =>
      ⟨.err (.native m), bnd', [.numberFromReal 4, .bindByPos position .SQLT_VNU]⟩
    | none => ⟨.ok, bnd', [.numberFromReal 4, .bindByPos position .SQLT_VNU]⟩

/-- bndFloat32.go `bndFloat32.close`: save the back-reference, clear it and
the bind handle, hand to `stmt.putBnd(bndIdxFloat32, bnd)`; a panic there
is recovered into the returned error. -/
def bndFloat32.close (bnd : bndFloat32) (putB : PutBndOutcome) :
    BndCloseRes bndFloat32 :=
  let bnd' := { bnd with stmt := none, ocibnd := false }
  match putB with
  | .ok => ⟨none, .float32, bnd'⟩
  | .panicWith v => ⟨some (.recovered v), .float32, bnd'⟩

/-- bndFloat64.go `bndFloat64`. -/
structure bndFloat64 where
  stmt : Option Nat
  ocibnd : Bool
deriving DecidableEq

/-- bndFloat64.go `bndFloat64.bind`: record the statement; convert with
`OCINumberFromReal(..., 8, &ociNumber)` (width 8); on success register
`&ociNumber` at `position` with tag `SQLT_VNU`. -/
def bndFloat64.bind (bnd : bndFloat64) (position : Nat) (stmtId : Nat)
    (o : BindOracle) : BindRes bndFloat64 :=
  let bnd' := { bnd with stmt := some stmtId }
  match o.numConvErr with
  | some m => ⟨.err (.native m), bnd', [.numberFromReal 8]⟩
  | none =>
    match o.bindErr with
    | some m =>
      ⟨.err (.native m), bnd', [.numberFromReal 8, .bindByPos position .SQLT_VNU]⟩
    | none => ⟨.ok, bnd', [.numberFromReal 8, .bindByPos position .SQLT_VNU]⟩

/-- bndFloat64.go `bndFloat64.close`: save the back-reference, clear it
and the bind handle, hand to `stmt.putBnd(bndIdxFloat64, bnd)`; a panic
there is recovered into the returned error. -/
def bndFloat64.close (bnd : bndFloat64) (putB : PutBndOutcome) :
    BndCloseRes bndFloat64 :=
  let bnd' := { bnd with stmt := none, ocibnd := false }
  match putB with
  | .ok => ⟨none, .float64, bnd'⟩
  | .panicWith v => ⟨some (.recovered v), .float64, bnd'⟩

/-- bndUint64.go `bndUint64`. -/
structure bndUint64 where
  stmt : Option Nat
  ocibnd : Bool
deriving DecidableEq

/-- bndUint64.go `bndUint64.bind`: record the statement; convert with
`OCINumberFromInt(..., 8, OCI_NUMBER_UNSIGNED, &ociNumber)` (width 8,
unsigned); on success register `&ociNumber` at `position` with tag
`SQLT_VNU`. -/
def bndUint64.bind (bnd : bndUint64) (position : Nat) (stmtId : Nat)
    (o : BindOracle) : BindRes bndUint64 :=
  let bnd' := { bnd with stmt := some stmtId }
  match o.numConvErr with
  | some m => ⟨.err (.native m), bnd', [.numberFromInt 8 true]⟩
  | none =>
    match o.bindErr with
    | some m =>
      ⟨.err (.native m), bnd', [.numberFromInt 8 true, .bindByPos position .SQLT_VNU]⟩
    | none => ⟨.ok, bnd', [.numberFromInt 8 true, .bindByPos position .SQLT_VNU]⟩

/-- bndUint64.go `bndUint64.close`: save the back-reference, clear it and
the bind handle, hand to `stmt.putBnd(bndIdxUint64, bnd)`; a panic there
is recovered into the returned error. -/
def bndUint64.close (bnd : bndUint64) (putB : PutBndOutcome) :
    BndCloseRes bndUint64 :=
  let bnd' := { bnd with stmt := none, ocibnd := false }
  match putB with
  | .ok => ⟨none, .uint64, bnd'⟩
  | .panicWith v => ⟨some (.recovered v), .uint64, bnd'⟩

/-! ## Concrete fixtures shared by several witnesses/counterexamples -/

/-- A freshly opened environment with no children and no default
statement configuration. -/
def envFresh : Env := ⟨true, true, true, none, [], [], false⟩

/-- An empty heap. -/
def heapZero : Heap := ⟨fun _ => 0, 0⟩

/-- A server-open oracle on which every native call succeeds. -/
def srvOracleOk : SrvOracle := ⟨false, none, false, none, .ok⟩

/-- Concrete environment for C1: two open connections, the first of
which panics during its `Close`. -/
def envC1 : Env :=
  ⟨true, true, true, none, [], [⟨.panicWith "boom"⟩, ⟨.ok⟩], false⟩

/-- Environment and heap for the C3 witness: the default statement
configuration lives at address 0 and holds the value 42. -/
def envCfg3 : Env := ⟨true, true, true, some 0, [], [], false⟩

/-- Heap holding the value 42 at address 0. -/
def heapCfg3 : Heap := ⟨fun a => if a = 0 then 42 else 0, 1⟩

/-- A closed (already-Closed) environment that still remembers a cfg
pointer. -/
def envClosed5 : Env := ⟨false, false, false, some 0, [], [], true⟩

/-- A connection-open oracle whose native calls all succeed but whose
charset metadata query fails. -/
def conOracleQErr : ConOracle := ⟨srvOracleOk, none, .qerr, .ok⟩

/-- A connection-open oracle whose native calls succeed and whose
charset metadata query returns the row AL32UTF8. -/
def conOracleRowUtf8 : ConOracle := ⟨srvOracleOk, none, .row "AL32UTF8", .ok⟩

/-! ## Close-loop bookkeeping helpers -/

/-- The non-nil errors a list of close outcomes contributes, in
collection order (what the `errs.PushBack(errE(err))` calls collect). -/
def errsOf (l : List CloseOutcome) : List BErr :=
  l.filterMap fun o => match o with | .err e => some e | _ => none

/-- Whether a close outcome is an error return (a child that "fails to
close"). -/
def isErrClose : CloseOutcome → Bool
  | .err _ => true
  | _ => false

/-- The value of the first panic in a list of close outcomes, if any. -/
def firstPanicIn : List CloseOutcome → Option String
  | [] => none
  | .panicWith v :: _ => some v
  | .ok :: rest => firstPanicIn rest
  | .err _ :: rest => firstPanicIn rest

/-- The first panic `Env.Close` would run into: connections are closed
before servers. -/
def Env.firstPanic (env : Env) : Option String :=
  match firstPanicIn (env.openCons.map Con.onClose) with
  | some v => some v
  | none => firstPanicIn (env.openSrvs.map Srv.onClose)

/-- All child errors `Env.Close` collects when no child panics:
connection errors first, then server errors. -/
def Env.closeErrs (env : Env) : List BErr :=
  errsOf (env.openCons.map Con.onClose) ++ errsOf (env.openSrvs.map Srv.onClose)

lemma errsOf_ok_cons (rest : List CloseOutcome) :
    errsOf (.ok :: rest) = errsOf rest := by
  simp [errsOf]

lemma errsOf_err_cons (e : BErr) (rest : List CloseOutcome) :
    errsOf (.err e :: rest) = e :: errsOf rest := by
  simp [errsOf]

lemma range_map_shift (mk : Nat → Ev) (n i : Nat) :
    mk i :: (List.range n).map (fun j => mk (i + 1 + j)) =
      (List.range (n + 1)).map fun j => mk (i + j) := by
  rw [List.range_succ_eq_map, List.map_cons, List.map_map]
  refine congrArg₂ List.cons (congrArg mk (by omega)) ?_
  refine List.map_congr_left fun j _ => ?_
  show mk (i + 1 + j) = mk (i + Nat.succ j)
  exact congrArg mk (by omega)

lemma closeLoop_no_panic (mk : Nat → Ev) (l : List CloseOutcome) :
    ∀ i, firstPanicIn l = none →
      closeLoop mk l i = ((List.range l.length).map fun j => mk (i + j), errsOf l, none) := by
  induction l with
  | nil => intro i _; simp [closeLoop, errsOf]
  | cons o rest ih =>
    intro i h
    cases o with
    | ok =>
      have h' : firstPanicIn rest = none := by simpa [firstPanicIn] using h
      rw [closeLoop, ih (i + 1) h']
      simp only [List.length_cons, Prod.mk.injEq]
      exact ⟨range_map_shift mk rest.length i, (errsOf_ok_cons rest).symm, trivial⟩
    | err e =>
      have h' : firstPanicIn rest = none := by simpa [firstPanicIn] using h
      rw [closeLoop, ih (i + 1) h']
      simp only [List.length_cons, Prod.mk.injEq]
      exact ⟨range_map_shift mk rest.length i, (errsOf_err_cons e rest).symm, trivial⟩
    | panicWith v => exact absurd h (by simp [firstPanicIn])

lemma closeLoop_pc (mk : Nat → Ev) (l : List CloseOutcome) :
    ∀ i, (closeLoop mk l i).2.2 = firstPanicIn l := by
  induction l with
  | nil => intro i; simp [closeLoop, firstPanicIn]
  | cons o rest ih =>
    intro i
    cases o with
    | ok => rw [closeLoop]; exact (ih (i + 1)).trans (by simp [firstPanicIn])
    | err e => rw [closeLoop]; exact (ih (i + 1)).trans (by simp [firstPanicIn])
    | panicWith v => simp [closeLoop, firstPanicIn]

lemma errsOf_length (l : List CloseOutcome) :
    (errsOf l).length = l.countP isErrClose := by
  induction l with
  | nil => simp [errsOf]
  | cons o rest ih =>
    cases o with
    | ok => rw [errsOf_ok_cons, ih]; simp [isErrClose, List.countP_cons]
    | err e => rw [errsOf_err_cons, List.length_cons, ih]; simp [isErrClose, List.countP_cons]
    | panicWith v =>
      have : errsOf (.panicWith v :: rest) = errsOf rest := by simp [errsOf]
      rw [this, ih]; simp [isErrClose, List.countP_cons]

/-- Whatever the children did, `Env.Close` on an open environment leaves
the object with its handles nil, detached from the open-environments
list, both collections reset, and back in the pool (the deferred block
always runs). -/
lemma Close_post_env (env : Env) (freeRes : Option BErr)
    (hopen : env.ocienv = true) :
    (env.Close freeRes).env =
      { env with
        ocienv := false, ocierr := false, elem := false,
        openSrvs := [], openCons := [], pooled := true } := by
  unfold Env.Close
  simp only [Env.checkClosed, hopen, if_true]
  cases (closeLoop Ev.conClose (env.openCons.map Con.onClose) 0).2.2 with
  | some v => simp [closeFinish]
  | none =>
    cases (closeLoop Ev.srvClose (env.openSrvs.map Srv.onClose) 0).2.2 with
    | some v => simp [closeFinish]
    | none => simp [closeFinish]

/-! ## Claims about Env.Close (C1, C2) -/

/-- C1 counterexample: with two open connections whose first panics on
close, `Env.Close` never closes the second connection — the panic unwinds
straight to the deferred recover, so the remaining sibling children are
not closed (and the native context handle is not freed), refuting the
claim that a panic "never prevents the remaining sibling children from
being closed".  The terminal bookkeeping and the folding of the panic
into the aggregate error do still happen. -/
theorem Env_Close_panic_skips_sibling_cex :
    envC1.openCons.length = 2 ∧
    (envC1.Close none).trace = [Ev.conClose 0] ∧
    Ev.conClose 1 ∉ (envC1.Close none).trace ∧
    Ev.freeEnvHandle ∉ (envC1.Close none).trace ∧
    (envC1.Close none).ret = some (.multi [.recovered "boom"]) ∧
    (envC1.Close none).env.pooled = true := by decide

/-- C1 (amended): `Env.Close` on an open environment always performs its
terminal bookkeeping regardless of child-close errors or panics — it
removes the environment from the process-wide open-environment list,
nils its native context and error handles, resets both open collections,
and returns the object to the environment pool — and any panic raised
during the close sequence is recovered and folded into the returned
aggregate error (as its last entry) rather than propagated.  (A panic
does, however, abort the closing of the remaining sibling children; see
the counterexample.) -/
theorem Env_Close_bookkeeping_total (env : Env) (freeRes : Option BErr)
    (hopen : env.ocienv = true) :
    ((env.Close freeRes).env.elem = false ∧
     (env.Close freeRes).env.ocienv = false ∧
     (env.Close freeRes).env.ocierr = false ∧
     (env.Close freeRes).env.openSrvs = [] ∧
     (env.Close freeRes).env.openCons = [] ∧
     (env.Close freeRes).env.pooled = true) ∧
    ∀ v, env.firstPanic = some v →
      ∃ es, (env.Close freeRes).ret = some (.multi (es ++ [.recovered v])) := by
  constructor
  · rw [Close_post_env env freeRes hopen]
    exact ⟨rfl, rfl, rfl, rfl, rfl, rfl⟩
  · intro v hv
    unfold Env.Close
    simp only [Env.checkClosed, hopen, if_true]
    rw [closeLoop_pc Ev.conClose (env.openCons.map Con.onClose) 0,
      closeLoop_pc Ev.srvClose (env.openSrvs.map Srv.onClose) 0]
    unfold Env.firstPanic at hv
    cases hfc : firstPanicIn (env.openCons.map Con.onClose) with
    | some w =>
      rw [hfc] at hv
      have hw : w = v := by simpa using hv
      subst hw
      exact ⟨(closeLoop Ev.conClose (env.openCons.map Con.onClose) 0).2.1,
        by simp [closeFinish]⟩
    | none =>
      rw [hfc] at hv
      have hs : firstPanicIn (env.openSrvs.map Srv.onClose) = some v := by
        simpa using hv
      rw [hs]
      exact ⟨(closeLoop Ev.conClose (env.openCons.map Con.onClose) 0).2.1 ++
          (closeLoop Ev.srvClose (env.openSrvs.map Srv.onClose) 0).2.1,
        by simp [closeFinish]⟩

/-- Witness for C1 (amended) at a concrete environment whose only open
server panics on close. -/
theorem Env_Close_bookkeeping_total_witness :
    (((⟨true, true, true, none, [⟨none, false, .panicWith "srvboom"⟩], [], false⟩ :
        Env).Close none).env.pooled = true) ∧
    ∃ es, ((⟨true, true, true, none, [⟨none, false, .panicWith "srvboom"⟩], [], false⟩ :
        Env).Close none).ret = some (.multi (es ++ [.recovered "srvboom"])) := by
  have h := Env_Close_bookkeeping_total
    ⟨true, true, true, none, [⟨none, false, .panicWith "srvboom"⟩], [], false⟩ none rfl
  exact ⟨h.1.2.2.2.2.2, h.2 "srvboom" rfl⟩

/-- C2: on an open environment with `M` open connections and `K` open
servers none of which panics, `Env.Close` closes each open connection in
collection order, then each open server, frees the native context handle
last, collects exactly the child errors (connections first) into the
aggregate, returns nil when no child failed and the aggregate of exactly
the `J` child errors otherwise, and leaves `NumCon() = 0` and
`NumSrv() = 0` regardless. -/
theorem Env_Close_drains (env : Env)
    (hopen : env.ocienv = true)
    (hc : firstPanicIn (env.openCons.map Con.onClose) = none)
    (hs : firstPanicIn (env.openSrvs.map Srv.onClose) = none) :
    (env.Close none).trace =
      ((List.range env.NumCon).map Ev.conClose) ++
        ((List.range env.NumSrv).map Ev.srvClose) ++ [.freeEnvHandle] ∧
    (env.Close none).ret =
      (if env.closeErrs.isEmpty then none else some (.multi env.closeErrs)) ∧
    env.closeErrs.length =
      (env.openCons.map Con.onClose).countP isErrClose +
        (env.openSrvs.map Srv.onClose).countP isErrClose ∧
    (env.Close none).env.NumCon = 0 ∧
    (env.Close none).env.NumSrv = 0 := by
  refine ⟨?_, ?_, ?_, ?_, ?_⟩
  · unfold Env.Close
    simp only [Env.checkClosed, hopen, if_true]
    rw [closeLoop_no_panic Ev.conClose _ 0 hc, closeLoop_no_panic Ev.srvClose _ 0 hs]
    simp [closeFinish, Env.NumCon, Env.NumSrv]
  · unfold Env.Close
    simp only [Env.checkClosed, hopen, if_true]
    rw [closeLoop_no_panic Ev.conClose _ 0 hc, closeLoop_no_panic Ev.srvClose _ 0 hs]
    simp [closeFinish, Env.closeErrs]
  · simp [Env.closeErrs, errsOf_length]
  · rw [Close_post_env env none hopen]; rfl
  · rw [Close_post_env env none hopen]; rfl

/-- Witness for C2: one connection that closes cleanly, one that fails,
and one server that fails; the aggregate reports exactly those two
errors in order and both collections are left empty. -/
theorem Env_Close_drains_witness :
    ((⟨true, true, true, none, [⟨none, false, .err (.native "srv fail")⟩],
        [⟨.ok⟩, ⟨.err (.native "con fail")⟩], false⟩ : Env).Close none).trace =
      [Ev.conClose 0, Ev.conClose 1, Ev.srvClose 0, Ev.freeEnvHandle] ∧
    ((⟨true, true, true, none, [⟨none, false, .err (.native "srv fail")⟩],
        [⟨.ok⟩, ⟨.err (.native "con fail")⟩], false⟩ : Env).Close none).ret =
      some (.multi [.native "con fail", .native "srv fail"]) ∧
    ((⟨true, true, true, none, [⟨none, false, .err (.native "srv fail")⟩],
        [⟨.ok⟩, ⟨.err (.native "con fail")⟩], false⟩ : Env).Close none).env.NumCon = 0 ∧
    ((⟨true, true, true, none, [⟨none, false, .err (.native "srv fail")⟩],
        [⟨.ok⟩, ⟨.err (.native "con fail")⟩], false⟩ : Env).Close none).env.NumSrv = 0 := by
  have h := Env_Close_drains
    ⟨true, true, true, none, [⟨none, false, .err (.native "srv fail")⟩],
      [⟨.ok⟩, ⟨.err (.native "con fail")⟩], false⟩ rfl (by decide) (by decide)
  refine ⟨?_, ?_, h.2.2.2.1, h.2.2.2.2⟩
  · have := h.1
    simpa [Env.NumCon, Env.NumSrv] using this
  · have := h.2.1
    simpa [Env.closeErrs, errsOf] using this

/-! ## Claim about Env.OpenSrv configuration sharing (C3) -/

/-- C3 (code-bug evidence): when the environment carries a default
statement configuration at heap address `p` and `OpenSrv` is called with
a cfg that supplies none, the returned server holds the very same
pointer `p` as the environment — `&(*srv.env.cfg.StmtCfg)` is the
pointer `srv.env.cfg.StmtCfg` itself in Go, and no copy is allocated (the
heap is unchanged) — so a later in-place mutation of the environment's
default statement configuration (a write of `v` through `p`) is what the
already-opened server observes through its own pointer.  This is the
opposite of the isolation the claim (and the code's own comment "copy by
value so that user may change independently") asserts. -/
theorem OpenSrv_shares_stmtCfg (env : Env) (h : Heap) (dblink : List Char)
    (o : SrvOracle) (p : Nat)
    (hopen : env.ocienv = true)
    (hcfg : env.cfgStmt = some p)
    (h1 : o.allocSrvFails = false) (h2 : o.attachErr = none)
    (h3 : o.allocSvcFails = false) (h4 : o.setAttrErr = none) :
    ∃ srv : Srv,
      (env.OpenSrv h (some ⟨dblink, none⟩) o).ret = .ok srv ∧
      srv.cfgStmt = some p ∧
      srv.cfgStmt = env.cfgStmt ∧
      (env.OpenSrv h (some ⟨dblink, none⟩) o).heap = h ∧
      ∀ v, ((env.OpenSrv h (some ⟨dblink, none⟩) o).heap.write p v).store p = v := by
  have hres : env.OpenSrv h (some ⟨dblink, none⟩) o =
      ⟨.ok ⟨some p, false, o.newSrvOnClose⟩,
       { env with openSrvs := env.openSrvs ++ [⟨some p, false, o.newSrvOnClose⟩] },
       h, [.allocHandle, .serverAttach, .allocHandle, .setAttrCall]⟩ := by
    simp [Env.OpenSrv, Env.checkClosed, hopen, hcfg, h1, h2, h3, h4]
  refine ⟨⟨some p, false, o.newSrvOnClose⟩, ?_, rfl, hcfg.symm, ?_, ?_⟩
  · rw [hres]
  · rw [hres]
  · intro v
    rw [hres]
    simp [Heap.write]

/-- Witness for the C3 evidence at the failing input: the environment's
default `StmtCfg` lives at address 0 and holds 42; after `OpenSrv` the
server holds the same address 0, and writing 7 through the
environment's pointer makes the server observe 7 instead of 42. -/
theorem OpenSrv_shares_stmtCfg_witness :
    ∃ srv : Srv,
      (envCfg3.OpenSrv heapCfg3 (some ⟨"orcl".data, none⟩) srvOracleOk).ret = .ok srv ∧
      srv.cfgStmt = some 0 ∧
      srv.cfgStmt = envCfg3.cfgStmt ∧
      (envCfg3.OpenSrv heapCfg3 (some ⟨"orcl".data, none⟩) srvOracleOk).heap = heapCfg3 ∧
      ∀ v, (((envCfg3.OpenSrv heapCfg3 (some ⟨"orcl".data, none⟩)
          srvOracleOk).heap.write 0 v).store 0) = v :=
  OpenSrv_shares_stmtCfg envCfg3 heapCfg3 "orcl".data srvOracleOk 0
    rfl rfl rfl rfl rfl rfl

/-! ## Claim about mutating methods after Close (C5) -/

/-- C5 counterexample: `SetCfg` on a closed environment does not fail
with a closed-resource error — it cannot fail at all (the Go method has
no return value) and it does change state, overwriting the
configuration; this refutes the claim that every mutating method
(including SetCfg, Cfg, NumSrv, NumCon) fails with a closed-resource
error and performs no state change after Close. -/
theorem SetCfg_after_close_mutates_cex :
    envClosed5.ocienv = false ∧
    envClosed5.SetCfg (some 1) ≠ envClosed5 ∧
    (envClosed5.SetCfg (some 1)).cfgStmt = some 1 := by decide

/-- C5 (amended): after Close (native context handle nil), `OpenSrv`,
`OpenCon` and `Close` fail with the closed-resource error, perform no
native calls and leave all state unchanged; but `SetCfg`, `Cfg`,
`NumSrv` and `NumCon` perform no closed-check and return no error:
`SetCfg` silently overwrites the configuration, `Cfg` returns the
configuration, and on an environment just closed by `Close` both
`NumSrv` and `NumCon` return 0 because Close reset the collections. -/
theorem closed_env_methods (env : Env) (h : Heap) (cfg : Option SrvCfgM)
    (o : SrvOracle) (co : ConOracle) (cache : List (List Char × String))
    (str : List Char) (freeRes : Option BErr) (c : Option Nat)
    (hclosed : env.ocienv = false) :
    ((env.OpenSrv h cfg o).ret = .error (.base (.closedRes "Env is closed.")) ∧
     (env.OpenSrv h cfg o).env = env ∧ (env.OpenSrv h cfg o).heap = h ∧
     (env.OpenSrv h cfg o).trace = []) ∧
    ((env.OpenCon h cache str co).ret = .error (.base (.closedRes "Env is closed.")) ∧
     (env.OpenCon h cache str co).env = env ∧
     (env.OpenCon h cache str co).cache = cache ∧
     (env.OpenCon h cache str co).trace = []) ∧
    ((env.Close freeRes).ret = some (.base (.closedRes "Env is closed.")) ∧
     (env.Close freeRes).env = env ∧ (env.Close freeRes).trace = []) ∧
    env.SetCfg c = { env with cfgStmt := c } ∧
    env.Cfg = env.cfgStmt ∧
    ∀ e : Env, ∀ fr, e.ocienv = true →
      (e.Close fr).env.NumSrv = 0 ∧ (e.Close fr).env.NumCon = 0 := by
  refine ⟨?_, ?_, ?_, rfl, rfl, ?_⟩
  · simp [Env.OpenSrv, Env.checkClosed, hclosed]
  · simp [Env.OpenCon, Env.checkClosed, hclosed]
  · simp [Env.Close, Env.checkClosed, hclosed]
  · intro e fr he
    rw [Close_post_env e fr he]
    exact ⟨rfl, rfl⟩

/-- Witness for C5 (amended) on the concrete closed environment
`envClosed5`. -/
theorem closed_env_methods_witness :
    (envClosed5.OpenSrv heapZero none srvOracleOk).ret =
      .error (.base (.closedRes "Env is closed.")) ∧
    (envClosed5.Close none).ret = some (.base (.closedRes "Env is closed.")) ∧
    envClosed5.SetCfg (some 1) = { envClosed5 with cfgStmt := some 1 } := by
  have h := closed_env_methods envClosed5 heapZero none srvOracleOk
    ⟨srvOracleOk, none, .qerr, .ok⟩ [] [] none (some 1) rfl
  exact ⟨h.1.1, h.2.2.1.1, h.2.2.2.1⟩

/-! ## OpenCon decomposition (for C6 and C9) -/

lemma OpenSrv_success_shape (env : Env) (h : Heap) (cfg : SrvCfgM) (o : SrvOracle)
    (hopen : env.ocienv = true)
    (h1 : o.allocSrvFails = false) (h2 : o.attachErr = none)
    (h3 : o.allocSvcFails = false) (h4 : o.setAttrErr = none) :
    ∃ srv h',
      env.OpenSrv h (some cfg) o =
        ⟨.ok srv, { env with openSrvs := env.openSrvs ++ [srv] }, h',
         [.allocHandle, .serverAttach, .allocHandle, .setAttrCall]⟩ ∧
      srv.dbIsUTF8 = false := by
  cases hc : cfg.stmtCfg with
  | none =>
    cases he : env.cfgStmt with
    | none =>
      exact ⟨⟨none, false, o.newSrvOnClose⟩, h,
        by simp [Env.OpenSrv, Env.checkClosed, hopen, h1, h2, h3, h4, hc, he], rfl⟩
    | some p =>
      exact ⟨⟨some p, false, o.newSrvOnClose⟩, h,
        by simp [Env.OpenSrv, Env.checkClosed, hopen, h1, h2, h3, h4, hc, he], rfl⟩
  | some q =>
    cases he : env.cfgStmt with
    | none =>
      exact ⟨⟨some q, false, o.newSrvOnClose⟩, h,
        by simp [Env.OpenSrv, Env.checkClosed, hopen, h1, h2, h3, h4, hc, he], rfl⟩
    | some p =>
      exact ⟨⟨some q, false, o.newSrvOnClose⟩, h,
        by simp [Env.OpenSrv, Env.checkClosed, hopen, h1, h2, h3, h4, hc, he], rfl⟩

/-- On the all-native-success, session-success path, `OpenCon`'s result
components are determined by the charset section: the returned flag, the
final cache, the trace (the four `OpenSrv` native calls, the `OpenSes`
call, then the charset critical section), and the environment stays
open. -/
lemma OpenCon_components (env : Env) (h : Heap) (cache : List (List Char × String))
    (str : List Char) (o : ConOracle) (prm : ConnParams)
    (hopen : env.ocienv = true)
    (hparse : parseConnStr str = .ok prm)
    (h1 : o.srvO.allocSrvFails = false) (h2 : o.srvO.attachErr = none)
    (h3 : o.srvO.allocSvcFails = false) (h4 : o.srvO.setAttrErr = none)
    (hses : o.openSesErr = none) :
    (env.OpenCon h cache str o).ret =
      .ok ((charsetSection cache prm.dblink o.queryRes).flagSet.getD false) ∧
    (env.OpenCon h cache str o).cache =
      (charsetSection cache prm.dblink o.queryRes).cache ∧
    (env.OpenCon h cache str o).trace =
      [.allocHandle, .serverAttach, .allocHandle, .setAttrCall, .openSes] ++
        (charsetSection cache prm.dblink o.queryRes).trace ∧
    (env.OpenCon h cache str o).env.ocienv = true := by
  obtain ⟨srv, h', hsrv, hflag⟩ :=
    OpenSrv_success_shape env h ⟨prm.dblink, none⟩ o.srvO hopen h1 h2 h3 h4
  refine ⟨?_, ?_, ?_, ?_⟩ <;>
    simp [Env.OpenCon, Env.checkClosed, hopen, hparse, hsrv, hses, hflag]

lemma charsetLookup_append_self (cache : List (List Char × String))
    (d : List Char) (cs : String) (hmiss : charsetLookup cache d = none) :
    charsetLookup (cache ++ [(d, cs)]) d = some cs := by
  induction cache with
  | nil => simp [charsetLookup]
  | cons kv rest ih =>
    obtain ⟨k, v⟩ := kv
    by_cases hk : k = d
    · simp [charsetLookup, hk] at hmiss
    · simp [charsetLookup, hk] at hmiss ⊢
      exact ih hmiss

lemma charsetSection_hit (cache : List (List Char × String)) (d : List Char)
    (cs : String) (q : QueryRes) (hhit : charsetLookup cache d = some cs) :
    charsetSection cache d q =
      ⟨some (cs == "AL32UTF8"), cache, [.lockCharset, .unlockCharset]⟩ := by
  simp [charsetSection, hhit]

lemma charsetSection_miss_row (cache : List (List Char × String)) (d : List Char)
    (cs : String) (hmiss : charsetLookup cache d = none) :
    charsetSection cache d (.row cs) =
      ⟨some (cs == "AL32UTF8"), cache ++ [(d, cs)],
        [.lockCharset, .charsetQuery, .unlockCharset]⟩ := by
  simp [charsetSection, hmiss]

lemma charsetSection_miss_fail (cache : List (List Char × String)) (d : List Char)
    (q : QueryRes) (hmiss : charsetLookup cache d = none)
    (hq : q = .qerr ∨ q = .noRow) :
    charsetSection cache d q =
      ⟨none, cache, [.lockCharset, .charsetQuery, .unlockCharset]⟩ := by
  cases hq with
  | inl h => subst h; simp [charsetSection, hmiss]
  | inr h => subst h; simp [charsetSection, hmiss]

lemma charsetSection_miss_trace (cache : List (List Char × String)) (d : List Char)
    (q : QueryRes) (hmiss : charsetLookup cache d = none) :
    (charsetSection cache d q).trace =
      [.lockCharset, .charsetQuery, .unlockCharset] := by
  cases q <;> simp [charsetSection, hmiss]

/-! ## Claims about the charset cache (C6, C9) -/

/-- C6 counterexample: two OpenCon calls to the same link both succeed,
yet the metadata query is issued twice — the first call's query fails, so
nothing is cached and the second call misses the cache again.  This
refutes "the database character-set metadata query is issued at most once
in total" for every pair of successful OpenCon calls. -/
theorem charset_query_twice_cex :
    (envFresh.OpenCon heapZero [] "scott/tiger@orcl".data conOracleQErr).ret =
      .ok false ∧
    ((envFresh.OpenCon heapZero [] "scott/tiger@orcl".data conOracleQErr).env.OpenCon
      (envFresh.OpenCon heapZero [] "scott/tiger@orcl".data conOracleQErr).heap
      (envFresh.OpenCon heapZero [] "scott/tiger@orcl".data conOracleQErr).cache
      "scott/tiger@orcl".data conOracleQErr).ret = .ok false ∧
    (envFresh.OpenCon heapZero [] "scott/tiger@orcl".data
        conOracleQErr).trace.count Ev.charsetQuery +
      ((envFresh.OpenCon heapZero [] "scott/tiger@orcl".data conOracleQErr).env.OpenCon
        (envFresh.OpenCon heapZero [] "scott/tiger@orcl".data conOracleQErr).heap
        (envFresh.OpenCon heapZero [] "scott/tiger@orcl".data conOracleQErr).cache
        "scott/tiger@orcl".data conOracleQErr).trace.count Ev.charsetQuery = 2 := by
  decide

/-- C6 (amended): when the first OpenCon's metadata query succeeds and
parses (returns a character-set row), two successful OpenCon calls to
the same link issue the query exactly once in total — the second call
hits the cache and its server's UTF-8 flag equals the first one's; and
whenever the query fails or yields no usable row, OpenCon still succeeds
with a nil error, the server's UTF-8 flag stays at its default `false`,
and the cache is left unpopulated (so a later call to the same link
issues the query again). -/
theorem charset_cache_behavior (env : Env) (h : Heap)
    (cache : List (List Char × String)) (str : List Char)
    (o1 o2 : ConOracle) (prm : ConnParams) (cs : String)
    (hopen : env.ocienv = true)
    (hparse : parseConnStr str = .ok prm)
    (hmiss : charsetLookup cache prm.dblink = none)
    (h11 : o1.srvO.allocSrvFails = false) (h12 : o1.srvO.attachErr = none)
    (h13 : o1.srvO.allocSvcFails = false) (h14 : o1.srvO.setAttrErr = none)
    (h15 : o1.openSesErr = none)
    (h21 : o2.srvO.allocSrvFails = false) (h22 : o2.srvO.attachErr = none)
    (h23 : o2.srvO.allocSvcFails = false) (h24 : o2.srvO.setAttrErr = none)
    (h25 : o2.openSesErr = none) :
    (o1.queryRes = .row cs →
      (env.OpenCon h cache str o1).ret = .ok (cs == "AL32UTF8") ∧
      (env.OpenCon h cache str o1).trace.count Ev.charsetQuery = 1 ∧
      ((env.OpenCon h cache str o1).env.OpenCon
          (env.OpenCon h cache str o1).heap
          (env.OpenCon h cache str o1).cache str o2).ret =
        .ok (cs == "AL32UTF8") ∧
      ((env.OpenCon h cache str o1).env.OpenCon
          (env.OpenCon h cache str o1).heap
          (env.OpenCon h cache str o1).cache str o2).trace.count
        Ev.charsetQuery = 0) ∧
    ((o1.queryRes = .qerr ∨ o1.queryRes = .noRow) →
      (env.OpenCon h cache str o1).ret = .ok false ∧
      (env.OpenCon h cache str o1).cache = cache) := by
  obtain ⟨hret1, hcache1, htrace1, hopen1⟩ :=
    OpenCon_components env h cache str o1 prm hopen hparse h11 h12 h13 h14 h15
  constructor
  · intro hq
    rw [hq] at hret1 hcache1 htrace1
    rw [charsetSection_miss_row cache prm.dblink cs hmiss] at hret1 hcache1 htrace1
    have hhit : charsetLookup (env.OpenCon h cache str o1).cache prm.dblink = some cs := by
      rw [hcache1]
      exact charsetLookup_append_self cache prm.dblink cs hmiss
    obtain ⟨hret2, hcache2, htrace2, _⟩ :=
      OpenCon_components (env.OpenCon h cache str o1).env
        (env.OpenCon h cache str o1).heap (env.OpenCon h cache str o1).cache
        str o2 prm hopen1 hparse h21 h22 h23 h24 h25
    rw [charsetSection_hit _ prm.dblink cs _ hhit] at hret2 htrace2
    refine ⟨by simpa using hret1, ?_, by simpa using hret2, ?_⟩
    · rw [htrace1]; rfl
    · rw [htrace2]; rfl
  · intro hq
    rw [charsetSection_miss_fail cache prm.dblink o1.queryRes hmiss hq]
      at hret1 hcache1
    exact ⟨by simpa using hret1, by simpa using hcache1⟩

/-- Witness for C6 (amended): a fresh environment, empty cache, and a
first query returning AL32UTF8: one query in total, both connections
flagged UTF-8. -/
theorem charset_cache_behavior_witness :
    (envFresh.OpenCon heapZero [] "scott/tiger@orcl".data conOracleRowUtf8).ret =
      .ok ("AL32UTF8" == "AL32UTF8") ∧
    (envFresh.OpenCon heapZero [] "scott/tiger@orcl".data
        conOracleRowUtf8).trace.count Ev.charsetQuery = 1 ∧
    ((envFresh.OpenCon heapZero [] "scott/tiger@orcl".data conOracleRowUtf8).env.OpenCon
        (envFresh.OpenCon heapZero [] "scott/tiger@orcl".data conOracleRowUtf8).heap
        (envFresh.OpenCon heapZero [] "scott/tiger@orcl".data conOracleRowUtf8).cache
        "scott/tiger@orcl".data conOracleRowUtf8).ret = .ok ("AL32UTF8" == "AL32UTF8") ∧
    ((envFresh.OpenCon heapZero [] "scott/tiger@orcl".data conOracleRowUtf8).env.OpenCon
        (envFresh.OpenCon heapZero [] "scott/tiger@orcl".data conOracleRowUtf8).heap
        (envFresh.OpenCon heapZero [] "scott/tiger@orcl".data conOracleRowUtf8).cache
        "scott/tiger@orcl".data conOracleRowUtf8).trace.count Ev.charsetQuery = 0 :=
  (charset_cache_behavior envFresh heapZero [] "scott/tiger@orcl".data
    conOracleRowUtf8 conOracleRowUtf8
    ⟨"scott".data, "tiger".data, "orcl".data⟩ "AL32UTF8"
    rfl (by decide) rfl rfl rfl rfl rfl rfl rfl rfl rfl rfl rfl).1 rfl

/-- C9 counterexample: on a concrete cache-missing OpenCon the metadata
query event occurs between the charset-cache lock and unlock events (the
unlock is deferred to function exit), so the cache lock is held across
the network metadata query — refuting the claim that the lock is never
held across that query. -/
theorem charset_lock_across_query_cex :
    queryUnderLock false
      (envFresh.OpenCon heapZero [] "scott/tiger@orcl".data conOracleQErr).trace =
      true := by
  decide

/-- C9 (amended): in every cache-missing successful OpenCon, the charset
cache lock is acquired before the lookup and, because its release is
deferred to function exit, it is held across the metadata query: the
query event always occurs while the lock is held. -/
theorem charset_query_under_lock (env : Env) (h : Heap)
    (cache : List (List Char × String)) (str : List Char)
    (o : ConOracle) (prm : ConnParams)
    (hopen : env.ocienv = true)
    (hparse : parseConnStr str = .ok prm)
    (hmiss : charsetLookup cache prm.dblink = none)
    (h1 : o.srvO.allocSrvFails = false) (h2 : o.srvO.attachErr = none)
    (h3 : o.srvO.allocSvcFails = false) (h4 : o.srvO.setAttrErr = none)
    (hses : o.openSesErr = none) :
    queryUnderLock false (env.OpenCon h cache str o).trace = true := by
  obtain ⟨_, _, htrace, _⟩ :=
    OpenCon_components env h cache str o prm hopen hparse h1 h2 h3 h4 hses
  rw [htrace, charsetSection_miss_trace cache prm.dblink o.queryRes hmiss]
  rfl

/-- Witness for C9 (amended) at a fresh environment whose query returns
a row. -/
theorem charset_query_under_lock_witness :
    queryUnderLock false
      (envFresh.OpenCon heapZero [] "scott/tiger@orcl".data conOracleRowUtf8).trace =
      true :=
  charset_query_under_lock envFresh heapZero [] "scott/tiger@orcl".data
    conOracleRowUtf8 ⟨"scott".data, "tiger".data, "orcl".data⟩
    rfl (by decide) rfl rfl rfl rfl rfl rfl

/-! ## Claim about connection-string parsing (C4) -/

/-! ## Facts about the connection-string scanner (for C4) -/

lemma scanSpace_of_goSpace_false {c : Char} (h : isGoSpace c = false) :
    isScanSpace c = false := by
  simp [isScanSpace, h]

lemma goSpace_of_scanSpace {c : Char} (h : isScanSpace c = true) :
    isGoSpace c = true := by
  simp [isScanSpace] at h
  exact h.1

lemma mem_trimSpace {x : Char} {l : List Char} (h : x ∈ trimSpace l) : x ∈ l := by
  unfold trimSpace at h
  rw [List.mem_reverse] at h
  have h1 := (List.dropWhile_sublist isGoSpace
    (l := (l.dropWhile isGoSpace).reverse)).subset h
  rw [List.mem_reverse] at h1
  exact (List.dropWhile_sublist isGoSpace (l := l)).subset h1

lemma trimSpace_sandwich (ws1 ws2 m : List Char)
    (h1 : ∀ x ∈ ws1, isGoSpace x = true) (h2 : ∀ x ∈ ws2, isGoSpace x = true)
    (ch cl : Char)
    (hh : m.head? = some ch) (hch : isGoSpace ch = false)
    (hl : m.getLast? = some cl) (hcl : isGoSpace cl = false) :
    trimSpace (ws1 ++ (m ++ ws2)) = m := by
  obtain ⟨m', rfl⟩ : ∃ m', m = ch :: m' := by
    cases m with
    | nil => simp at hh
    | cons a t =>
      simp at hh
      exact ⟨t, by rw [hh]⟩
  unfold trimSpace
  rw [List.dropWhile_append_of_pos h1]
  rw [show (ch :: m') ++ ws2 = ch :: (m' ++ ws2) from rfl]
  rw [List.dropWhile_cons_of_neg (by simp [hch])]
  have hrev : (ch :: (m' ++ ws2)).reverse = ws2.reverse ++ (ch :: m').reverse := by
    simp
  rw [hrev]
  rw [List.dropWhile_append_of_pos (by intro x hx; exact h2 x (by simpa using hx))]
  obtain ⟨cl', hrv⟩ : ∃ t, (ch :: m').reverse = cl :: t := by
    have : (ch :: m').reverse.head? = some cl := by
      rw [List.head?_reverse]
      exact hl
    cases hrev2 : (ch :: m').reverse with
    | nil => rw [hrev2] at this; simp at this
    | cons a t =>
      rw [hrev2] at this
      simp at this
      exact ⟨t, by rw [this]⟩
  rw [hrv, List.dropWhile_cons_of_neg (by simp [hcl]), ← hrv, List.reverse_reverse]

lemma replaceFirstPad_append_not_mem (old : Char) (a b : List Char)
    (h : old ∉ a) :
    replaceFirstPad old (a ++ b) = a ++ replaceFirstPad old b := by
  induction a with
  | nil => simp
  | cons c t ih =>
    have hc : c ≠ old := by rintro rfl; exact h (by simp)
    have ht : old ∉ t := fun hm => h (by simp [hm])
    simp [replaceFirstPad, hc, ih ht]

lemma replaceFirstPad_cons_ne (old c : Char) (l : List Char) (h : c ≠ old) :
    replaceFirstPad old (c :: l) = c :: replaceFirstPad old l := by
  simp [replaceFirstPad, h]

lemma replaceFirstPad_cons_self (old : Char) (l : List Char) :
    replaceFirstPad old (old :: l) = ' ' :: old :: ' ' :: l := by
  simp [replaceFirstPad]

lemma mem_replaceFirstPad {old x : Char} {l : List Char}
    (h : x ∈ replaceFirstPad old l) : x ∈ l ∨ x = ' ' := by
  induction l with
  | nil => simp [replaceFirstPad] at h
  | cons c t ih =>
    by_cases hc : c = old
    · subst hc
      rw [replaceFirstPad_cons_self] at h
      simp at h
      rcases h with h | h | h | h
      · exact .inr h
      · exact .inl (by simp [h])
      · exact .inr h
      · exact .inl (by simp [h])
    · rw [replaceFirstPad_cons_ne old c t hc] at h
      simp at h
      rcases h with h | h
      · exact .inl (by simp [h])
      · rcases ih h with h' | h'
        · exact .inl (by simp [h'])
        · exact .inr h'

lemma scanToken_exact (u b : List Char) (hu : u ≠ [])
    (hus : ∀ x ∈ u, isGoSpace x = false)
    (hb : ∀ c ∈ b.head?, isGoSpace c = true) :
    scanToken (u ++ b) = some (u, b) := by
  obtain ⟨cu, u', rfl⟩ : ∃ cu u', u = cu :: u' := by
    cases u with
    | nil => exact absurd rfl hu
    | cons a t => exact ⟨a, t, rfl⟩
  have hcu : isGoSpace cu = false := hus cu (by simp)
  have hdw : ((cu :: u') ++ b).dropWhile isScanSpace = (cu :: u') ++ b := by
    rw [show (cu :: u') ++ b = cu :: (u' ++ b) from rfl]
    exact List.dropWhile_cons_of_neg (by simp [scanSpace_of_goSpace_false hcu])
  have htw : ((cu :: u') ++ b).takeWhile (fun c => !(isGoSpace c)) = cu :: u' := by
    rw [List.takeWhile_append_of_pos (by intro x hx; simp [hus x hx])]
    cases b with
    | nil => simp
    | cons cb t =>
      have : isGoSpace cb = true := hb cb (by simp)
      rw [List.takeWhile_cons_of_neg (by simp [this])]
      simp
  have hdw2 : ((cu :: u') ++ b).dropWhile (fun c => !(isGoSpace c)) = b := by
    rw [List.dropWhile_append_of_pos (by intro x hx; simp [hus x hx])]
    cases b with
    | nil => simp
    | cons cb t =>
      have : isGoSpace cb = true := hb cb (by simp)
      exact List.dropWhile_cons_of_neg (by simp [this])
  simp only [scanToken]
  rw [hdw, htw, hdw2]
  simp

lemma scanSpaceRun_exact (w b : List Char)
    (hw : ∀ x ∈ w, isScanSpace x = true) (hwne : w ≠ [])
    (hb : ∀ c ∈ b.head?, isScanSpace c = false) :
    scanSpaceRun (w ++ b) = some b := by
  have hdw : (w ++ b).dropWhile isScanSpace = b := by
    rw [List.dropWhile_append_of_pos hw]
    cases b with
    | nil => simp
    | cons cb t => exact List.dropWhile_cons_of_neg (by simp [hb cb (by simp)])
  simp only [scanSpaceRun]
  rw [hdw]
  have hlen : b.length < (w ++ b).length := by
    have : 0 < w.length := List.length_pos.mpr hwne
    simp [List.length_append]
    omega
  simp [hlen]
  exact fun h => absurd h hwne

lemma scanLit_cons (c : Char) (rest : List Char) :
    scanLit c (c :: rest) = some rest := by
  simp [scanLit]

lemma scanToken_sub {l t r : List Char} (h : scanToken l = some (t, r)) :
    List.Sublist r l := by
  unfold scanToken at h
  by_cases he : ((l.dropWhile isScanSpace).takeWhile fun c => !(isGoSpace c)).isEmpty
  · simp [he] at h
  · simp [he] at h
    rw [← h.2]
    exact ((l.dropWhile isScanSpace).dropWhile_sublist _).trans
      (l.dropWhile_sublist isScanSpace)

lemma scanSpaceRun_sub {l r : List Char} (h : scanSpaceRun l = some r) :
    List.Sublist r l := by
  unfold scanSpaceRun at h
  by_cases hc : (l.dropWhile isScanSpace).length < l.length ||
      (l.dropWhile isScanSpace).isEmpty
  · simp [hc] at h
    rw [← h]
    exact l.dropWhile_sublist isScanSpace
  · simp [hc] at h

lemma scanLit_mem {c : Char} {l r : List Char} (h : scanLit c l = some r) :
    c ∈ l ∧ List.Sublist r l := by
  cases l with
  | nil => simp [scanLit] at h
  | cons c' rest =>
    by_cases hc : c' = c
    · subst hc
      simp [scanLit] at h
      rw [← h]
      exact ⟨by simp, List.sublist_cons_self c' rest⟩
    · simp [scanLit, hc] at h

lemma sscanfUPL_some_mem {l : List Char} {x : List Char × List Char × List Char}
    (h : sscanfUPL l = some x) : '@' ∈ l := by
  unfold sscanfUPL at h
  simp only [Option.bind_eq_bind, Option.bind_eq_some] at h
  obtain ⟨⟨u, l1⟩, h1, h⟩ := h
  obtain ⟨l2, h2, h⟩ := h
  obtain ⟨l3, h3, h⟩ := h
  obtain ⟨l4, h4, h⟩ := h
  obtain ⟨⟨p, l5⟩, h5, h⟩ := h
  obtain ⟨l6, h6, h⟩ := h
  obtain ⟨l7, h7, h⟩ := h
  have hmem : '@' ∈ l6 := (scanLit_mem h7).1
  have s6 : List.Sublist l6 l5 := scanSpaceRun_sub h6
  have s5 : List.Sublist l5 l4 := scanToken_sub h5
  have s4 : List.Sublist l4 l3 := scanSpaceRun_sub h4
  have s3 : List.Sublist l3 l2 := (scanLit_mem h3).2
  have s2 : List.Sublist l2 l1 := scanSpaceRun_sub h2
  have s1 : List.Sublist l1 l := scanToken_sub h1
  exact s1.subset (s2.subset (s3.subset (s4.subset (s5.subset (s6.subset hmem)))))

lemma head_space_spaces_cons (ws rest : List Char)
    (hws : ∀ x ∈ ws, isScanSpace x = true) :
    ∀ c ∈ (ws ++ ' ' :: rest).head?, isGoSpace c = true := by
  cases ws with
  | nil =>
    intro c hc
    simp at hc
    subst hc
    decide
  | cons a t =>
    intro c hc
    simp at hc
    subst hc
    exact goSpace_of_scanSpace (hws a (by simp))

/-- The scan of the canonical padded shape produced by `OpenCon`'s two
`strings.Replace` calls on a `user/password@link` input with optional
space runs around the separators. -/
lemma sscanfUPL_canonical (u p d ws2 ws3 ws4 ws5 : List Char)
    (hu : u ≠ []) (hus : ∀ x ∈ u, isGoSpace x = false)
    (hp : p ≠ []) (hps : ∀ x ∈ p, isGoSpace x = false)
    (hd : d ≠ []) (hds : ∀ x ∈ d, isGoSpace x = false)
    (h2 : ∀ x ∈ ws2, isScanSpace x = true) (h3 : ∀ x ∈ ws3, isScanSpace x = true)
    (h4 : ∀ x ∈ ws4, isScanSpace x = true) (h5 : ∀ x ∈ ws5, isScanSpace x = true) :
    sscanfUPL (u ++ (ws2 ++ (' ' :: '/' :: ' ' ::
        (ws3 ++ (p ++ (ws4 ++ (' ' :: '@' :: ' ' :: (ws5 ++ d)))))))) =
      some (u, p, d) := by
  obtain ⟨cp, p', rfl⟩ : ∃ cp p', p = cp :: p' := by
    cases p with
    | nil => exact absurd rfl hp
    | cons a t => exact ⟨a, t, rfl⟩
  obtain ⟨cd, d', rfl⟩ : ∃ cd d', d = cd :: d' := by
    cases d with
    | nil => exact absurd rfl hd
    | cons a t => exact ⟨a, t, rfl⟩
  have hcp : isGoSpace cp = false := hps cp (by simp)
  have hcd : isGoSpace cd = false := hds cd (by simp)
  have hsw2 : ∀ x ∈ ws2 ++ [' '], isScanSpace x = true := by
    intro x hx
    rcases List.mem_append.mp hx with hx | hx
    · exact h2 x hx
    · simp at hx; subst hx; decide
  have hsw4 : ∀ x ∈ ws4 ++ [' '], isScanSpace x = true := by
    intro x hx
    rcases List.mem_append.mp hx with hx | hx
    · exact h4 x hx
    · simp at hx; subst hx; decide
  have hsw3 : ∀ x ∈ ' ' :: ws3, isScanSpace x = true := by
    intro x hx
    rcases List.mem_cons.mp hx with hx | hx
    · subst hx; decide
    · exact h3 x hx
  have hsw5 : ∀ x ∈ ' ' :: ws5, isScanSpace x = true := by
    intro x hx
    rcases List.mem_cons.mp hx with hx | hx
    · subst hx; decide
    · exact h5 x hx
  have t1 : scanToken (u ++ (ws2 ++ (' ' :: '/' :: ' ' ::
      (ws3 ++ ((cp :: p') ++ (ws4 ++ (' ' :: '@' :: ' ' :: (ws5 ++ (cd :: d'))))))))) =
      some (u, ws2 ++ (' ' :: '/' :: ' ' ::
        (ws3 ++ ((cp :: p') ++ (ws4 ++ (' ' :: '@' :: ' ' :: (ws5 ++ (cd :: d')))))))) :=
    scanToken_exact u _ hu hus (head_space_spaces_cons ws2 _ h2)
  have s1 : scanSpaceRun (ws2 ++ (' ' :: '/' :: ' ' ::
      (ws3 ++ ((cp :: p') ++ (ws4 ++ (' ' :: '@' :: ' ' :: (ws5 ++ (cd :: d')))))))) =
      some ('/' :: ' ' ::
        (ws3 ++ ((cp :: p') ++ (ws4 ++ (' ' :: '@' :: ' ' :: (ws5 ++ (cd :: d'))))))) := by
    rw [show ws2 ++ (' ' :: '/' :: ' ' ::
        (ws3 ++ ((cp :: p') ++ (ws4 ++ (' ' :: '@' :: ' ' :: (ws5 ++ (cd :: d'))))))) =
        (ws2 ++ [' ']) ++ ('/' :: ' ' ::
          (ws3 ++ ((cp :: p') ++ (ws4 ++ (' ' :: '@' :: ' ' :: (ws5 ++ (cd :: d')))))))
      by simp]
    exact scanSpaceRun_exact (ws2 ++ [' ']) _ hsw2 (by simp)
      (by intro c hc; simp at hc; subst hc; decide)
  have l1 : scanLit '/' ('/' :: ' ' ::
      (ws3 ++ ((cp :: p') ++ (ws4 ++ (' ' :: '@' :: ' ' :: (ws5 ++ (cd :: d'))))))) =
      some (' ' ::
        (ws3 ++ ((cp :: p') ++ (ws4 ++ (' ' :: '@' :: ' ' :: (ws5 ++ (cd :: d'))))))) :=
    scanLit_cons '/' _
  have s2 : scanSpaceRun (' ' ::
      (ws3 ++ ((cp :: p') ++ (ws4 ++ (' ' :: '@' :: ' ' :: (ws5 ++ (cd :: d'))))))) =
      some ((cp :: p') ++ (ws4 ++ (' ' :: '@' :: ' ' :: (ws5 ++ (cd :: d'))))) := by
    rw [show (' ' :: (ws3 ++ ((cp :: p') ++ (ws4 ++
        (' ' :: '@' :: ' ' :: (ws5 ++ (cd :: d'))))))) =
        (' ' :: ws3) ++ ((cp :: p') ++ (ws4 ++ (' ' :: '@' :: ' ' :: (ws5 ++ (cd :: d')))))
      by simp]
    exact scanSpaceRun_exact (' ' :: ws3) _ hsw3 (by simp)
      (by intro c hc; simp at hc; subst hc; exact scanSpace_of_goSpace_false hcp)
  have t2 : scanToken ((cp :: p') ++ (ws4 ++ (' ' :: '@' :: ' ' :: (ws5 ++ (cd :: d'))))) =
      some (cp :: p', ws4 ++ (' ' :: '@' :: ' ' :: (ws5 ++ (cd :: d')))) :=
    scanToken_exact (cp :: p') _ (by simp) hps (head_space_spaces_cons ws4 _ h4)
  have s3 : scanSpaceRun (ws4 ++ (' ' :: '@' :: ' ' :: (ws5 ++ (cd :: d')))) =
      some ('@' :: ' ' :: (ws5 ++ (cd :: d'))) := by
    rw [show ws4 ++ (' ' :: '@' :: ' ' :: (ws5 ++ (cd :: d'))) =
        (ws4 ++ [' ']) ++ ('@' :: ' ' :: (ws5 ++ (cd :: d'))) by simp]
    exact scanSpaceRun_exact (ws4 ++ [' ']) _ hsw4 (by simp)
      (by intro c hc; simp at hc; subst hc; decide)
  have l2 : scanLit '@' ('@' :: ' ' :: (ws5 ++ (cd :: d'))) =
      some (' ' :: (ws5 ++ (cd :: d'))) := scanLit_cons '@' _
  have s4 : scanSpaceRun (' ' :: (ws5 ++ (cd :: d'))) = some (cd :: d') := by
    rw [show (' ' :: (ws5 ++ (cd :: d'))) = (' ' :: ws5) ++ (cd :: d') by simp]
    exact scanSpaceRun_exact (' ' :: ws5) _ hsw5 (by simp)
      (by intro c hc; simp at hc; subst hc; exact scanSpace_of_goSpace_false hcd)
  have t3 : scanToken (cd :: d') = some (cd :: d', []) := by
    have := scanToken_exact (cd :: d') [] (by simp) hds (by intro c hc; simp at hc)
    simpa using this
  simp only [sscanfUPL, Option.bind_eq_bind, t1, s1, l1, s2, t2, s3, l2, s4, t3,
    Option.some_bind]
  rfl

lemma parse_no_at (l : List Char) (h : '@' ∉ l) :
    parseConnStr l = .error (.base (.invalidArg "parse error")) := by
  simp only [parseConnStr]
  split
  · rename_i rest heq
    exfalso
    exact h (mem_trimSpace (heq ▸ (by simp : '@' ∈ ('/' :: '@' :: rest))))
  · cases hss : sscanfUPL (replaceFirstPad '@' (replaceFirstPad '/' (trimSpace l))) with
    | none => rfl
    | some x =>
      exfalso
      have hm := sscanfUPL_some_mem hss
      rcases mem_replaceFirstPad hm with hm | hm
      · rcases mem_replaceFirstPad hm with hm | hm
        · exact h (mem_trimSpace hm)
        · exact absurd hm (by decide)
      · exact absurd hm (by decide)

lemma parse_upl (u p d ws1 ws2 ws3 ws4 ws5 ws6 : List Char)
    (hu : u ≠ []) (hus : ∀ x ∈ u, isGoSpace x = false)
    (huslash : '/' ∉ u) (huat : '@' ∉ u)
    (hp : p ≠ []) (hps : ∀ x ∈ p, isGoSpace x = false) (hpat : '@' ∉ p)
    (hd : d ≠ []) (hds : ∀ x ∈ d, isGoSpace x = false)
    (hws1 : ∀ x ∈ ws1, isGoSpace x = true) (hws6 : ∀ x ∈ ws6, isGoSpace x = true)
    (hws2 : ∀ x ∈ ws2, isScanSpace x = true) (hws3 : ∀ x ∈ ws3, isScanSpace x = true)
    (hws4 : ∀ x ∈ ws4, isScanSpace x = true)
    (hws5 : ∀ x ∈ ws5, isScanSpace x = true) :
    parseConnStr (ws1 ++ ((u ++ (ws2 ++ ('/' :: (ws3 ++ (p ++ (ws4 ++
        ('@' :: (ws5 ++ d)))))))) ++ ws6)) = .ok ⟨u, p, d⟩ := by
  obtain ⟨cu, u', rfl⟩ : ∃ cu u', u = cu :: u' := by
    cases u with
    | nil => exact absurd rfl hu
    | cons a t => exact ⟨a, t, rfl⟩
  obtain ⟨D, cld, rfl⟩ : ∃ D cld, d = D ++ [cld] := by
    rcases List.eq_nil_or_concat d with h | ⟨L, b, h⟩
    · exact absurd h hd
    · exact ⟨L, b, by simpa using h⟩
  have hcu : isGoSpace cu = false := hus cu (by simp)
  have hcld : isGoSpace cld = false := hds cld (by simp)
  have hat_ws2 : '@' ∉ ws2 := fun hm => absurd (hws2 _ hm) (by decide)
  have hat_ws3 : '@' ∉ ws3 := fun hm => absurd (hws3 _ hm) (by decide)
  have hat_ws4 : '@' ∉ ws4 := fun hm => absurd (hws4 _ hm) (by decide)
  have hsl_ws2 : '/' ∉ ws2 := fun hm => absurd (hws2 _ hm) (by decide)
  set mid := (cu :: u') ++ (ws2 ++ ('/' :: (ws3 ++ (p ++ (ws4 ++
    ('@' :: (ws5 ++ (D ++ [cld])))))))) with hmid
  have hhead : mid.head? = some cu := by rw [hmid]; simp
  have hlast : mid.getLast? = some cld := by
    rw [hmid]
    rw [show cu :: u' ++ (ws2 ++ '/' :: (ws3 ++ (p ++ (ws4 ++
        '@' :: (ws5 ++ (D ++ [cld])))))) =
        (cu :: u' ++ (ws2 ++ '/' :: (ws3 ++ (p ++ (ws4 ++ '@' :: (ws5 ++ D)))))) ++ [cld]
      by simp]
    exact List.getLast?_concat _
  have htrim : trimSpace (ws1 ++ (mid ++ ws6)) = mid :=
    trimSpace_sandwich ws1 ws6 mid hws1 hws6 cu cld hhead hcu hlast hcld
  have hrep1 : replaceFirstPad '/' mid =
      (cu :: u') ++ (ws2 ++ (' ' :: '/' :: ' ' :: (ws3 ++ (p ++ (ws4 ++
        ('@' :: (ws5 ++ (D ++ [cld])))))))) := by
    rw [hmid, replaceFirstPad_append_not_mem '/' (cu :: u') _ huslash,
      replaceFirstPad_append_not_mem '/' ws2 _ hsl_ws2,
      replaceFirstPad_cons_self]
  have hrep2 : replaceFirstPad '@' ((cu :: u') ++ (ws2 ++ (' ' :: '/' :: ' ' ::
      (ws3 ++ (p ++ (ws4 ++ ('@' :: (ws5 ++ (D ++ [cld]))))))))) =
      (cu :: u') ++ (ws2 ++ (' ' :: '/' :: ' ' :: (ws3 ++ (p ++ (ws4 ++
        (' ' :: '@' :: ' ' :: (ws5 ++ (D ++ [cld])))))))) := by
    rw [replaceFirstPad_append_not_mem '@' (cu :: u') _ huat,
      replaceFirstPad_append_not_mem '@' ws2 _ hat_ws2,
      replaceFirstPad_cons_ne _ _ _ (by decide),
      replaceFirstPad_cons_ne _ _ _ (by decide),
      replaceFirstPad_cons_ne _ _ _ (by decide),
      replaceFirstPad_append_not_mem '@' ws3 _ hat_ws3,
      replaceFirstPad_append_not_mem '@' p _ hpat,
      replaceFirstPad_append_not_mem '@' ws4 _ hat_ws4,
      replaceFirstPad_cons_self]
  have hscan := sscanfUPL_canonical (cu :: u') p (D ++ [cld]) ws2 ws3 ws4 ws5
    hu hus hp hps hd hds hws2 hws3 hws4 hws5
  clear_value mid
  simp only [parseConnStr]
  rw [htrim]
  split
  · exfalso
    simp only [List.head?_cons, Option.some.injEq] at hhead
    apply huslash
    rw [hhead]
    exact List.mem_cons_self cu u'
  · rw [hrep1, hrep2, hscan]

lemma parse_external (ws1 ws2 rest : List Char)
    (h1 : ∀ x ∈ ws1, isGoSpace x = true) (h2 : ∀ x ∈ ws2, isGoSpace x = true)
    (hrest : rest = [] ∨ ∃ L b, rest = L ++ [b] ∧ isGoSpace b = false) :
    parseConnStr (ws1 ++ (('/' :: '@' :: rest) ++ ws2)) = .ok ⟨[], [], rest⟩ := by
  obtain ⟨cl, hcl1, hcl2⟩ :
      ∃ cl, ('/' :: '@' :: rest).getLast? = some cl ∧ isGoSpace cl = false := by
    rcases hrest with rfl | ⟨L, b, rfl, hb⟩
    · exact ⟨'@', by simp, by decide⟩
    · refine ⟨b, ?_, hb⟩
      rw [show '/' :: '@' :: (L ++ [b]) = ('/' :: '@' :: L) ++ [b] by simp]
      exact List.getLast?_concat _
  have htrim := trimSpace_sandwich ws1 ws2 ('/' :: '@' :: rest) h1 h2 '/' cl
    (by simp) (by decide) hcl1 hcl2
  simp only [parseConnStr]
  rw [htrim]
  rfl

/-- C4 counterexample: the claim asserts whitespace around the
separators is tolerated for every well-formed input, yielding the same
parse result, but inserting a single space after the slash of the
well-formed `"/@orcl"` makes parsing fail: the trimmed string no longer
starts with `"/@"`, and `fmt.Sscanf` cannot match `%s / %s @ %s`
against `" /   @ orcl"` because `%s` never matches an empty token. -/
theorem parse_external_ws_cex :
    parseConnStr "/ @orcl".data = .error (.base (.invalidArg "parse error")) ∧
    parseConnStr "/@orcl".data = .ok ⟨[], [], "orcl".data⟩ := by decide

/-- C4 (amended): `"scott/tiger@orcl"` parses to (scott, tiger, orcl);
`"/@orcl"` parses to empty credentials and link orcl; every input
without an `@` fails with the invalid-argument (scan) error; whitespace
around the `/` and `@` separators — plus leading and trailing whitespace
— is tolerated in the `user/password@link` form (for tokens free of
whitespace and of the separator characters), yielding the same parse.
In the external-authentication `/@link` form, leading and trailing
whitespace is tolerated with the same result, but whitespace between
the slash and the at-sign makes parsing fail (see the counterexample)
and whitespace after the at-sign is not stripped — it stays part of the
link, a different parse result: `"/@ orcl"` yields the link `" orcl"`. -/
theorem parseConnStr_spec :
    parseConnStr "scott/tiger@orcl".data =
      .ok ⟨"scott".data, "tiger".data, "orcl".data⟩ ∧
    parseConnStr "/@orcl".data = .ok ⟨[], [], "orcl".data⟩ ∧
    (∀ l : List Char, '@' ∉ l →
      parseConnStr l = .error (.base (.invalidArg "parse error"))) ∧
    (∀ u p d ws1 ws2 ws3 ws4 ws5 ws6 : List Char,
      u ≠ [] → (∀ x ∈ u, isGoSpace x = false) → '/' ∉ u → '@' ∉ u →
      p ≠ [] → (∀ x ∈ p, isGoSpace x = false) → '@' ∉ p →
      d ≠ [] → (∀ x ∈ d, isGoSpace x = false) →
      (∀ x ∈ ws1, isGoSpace x = true) → (∀ x ∈ ws6, isGoSpace x = true) →
      (∀ x ∈ ws2, isScanSpace x = true) → (∀ x ∈ ws3, isScanSpace x = true) →
      (∀ x ∈ ws4, isScanSpace x = true) → (∀ x ∈ ws5, isScanSpace x = true) →
      parseConnStr (ws1 ++ ((u ++ (ws2 ++ ('/' :: (ws3 ++ (p ++ (ws4 ++
          ('@' :: (ws5 ++ d)))))))) ++ ws6)) = .ok ⟨u, p, d⟩) ∧
    (∀ ws1 ws2 rest : List Char,
      (∀ x ∈ ws1, isGoSpace x = true) → (∀ x ∈ ws2, isGoSpace x = true) →
      (rest = [] ∨ ∃ L b, rest = L ++ [b] ∧ isGoSpace b = false) →
      parseConnStr (ws1 ++ (('/' :: '@' :: rest) ++ ws2)) = .ok ⟨[], [], rest⟩) ∧
    parseConnStr "/@ orcl".data = .ok ⟨[], [], " orcl".data⟩ :=
  ⟨by decide, by decide, parse_no_at, parse_upl, parse_external, by decide⟩

/-- Witness for C4 (amended): `" scott / tiger @ orcl "` (one extra
space everywhere) parses to (scott, tiger, orcl). -/
theorem parseConnStr_spec_witness :
    parseConnStr (" ".data ++ (("scott".data ++ (" ".data ++ ('/' :: (" ".data ++
        ("tiger".data ++ (" ".data ++ ('@' :: (" ".data ++ "orcl".data)))))))) ++
      " ".data)) = .ok ⟨"scott".data, "tiger".data, "orcl".data⟩ :=
  parseConnStr_spec.2.2.2.1 "scott".data "tiger".data "orcl".data
    " ".data " ".data " ".data " ".data " ".data " ".data
    (by decide) (by decide) (by decide) (by decide) (by decide) (by decide)
    (by decide) (by decide) (by decide) (by decide) (by decide) (by decide)
    (by decide) (by decide) (by decide)

/-! ## Claims about the binder variants (C7, C8, C10) -/

/-- C7: for every binder variant (bndBin, bndFloat32, bndFloat64,
bndUint64) in the bound state, `close()` hands the binder to the
statement's type-tagged pool with the statement back-reference already
cleared — a pooled binder never retains a statement reference — and a
panic raised during the hand-back is recovered and converted into the
returned error (`errR`) instead of propagating; a successful hand-back
returns nil. -/
theorem binder_close_clears_backref (s : Nat) (putB : PutBndOutcome) :
    (∀ b : bndBin, b.stmt = some s →
      (b.close putB).pooledBnd.stmt = none ∧ (b.close putB).pooledIdx = .bin ∧
      (∀ v, putB = .panicWith v → (b.close putB).ret = some (.recovered v)) ∧
      (putB = .ok → (b.close putB).ret = none)) ∧
    (∀ b : bndFloat32, b.stmt = some s →
      (b.close putB).pooledBnd.stmt = none ∧ (b.close putB).pooledIdx = .float32 ∧
      (∀ v, putB = .panicWith v → (b.close putB).ret = some (.recovered v)) ∧
      (putB = .ok → (b.close putB).ret = none)) ∧
    (∀ b : bndFloat64, b.stmt = some s →
      (b.close putB).pooledBnd.stmt = none ∧ (b.close putB).pooledIdx = .float64 ∧
      (∀ v, putB = .panicWith v → (b.close putB).ret = some (.recovered v)) ∧
      (putB = .ok → (b.close putB).ret = none)) ∧
    (∀ b : bndUint64, b.stmt = some s →
      (b.close putB).pooledBnd.stmt = none ∧ (b.close putB).pooledIdx = .uint64 ∧
      (∀ v, putB = .panicWith v → (b.close putB).ret = some (.recovered v)) ∧
      (putB = .ok → (b.close putB).ret = none)) := by
  refine ⟨fun b _ => ?_, fun b _ => ?_, fun b _ => ?_, fun b _ => ?_⟩ <;>
    cases putB <;>
      simp [bndBin.close, bndFloat32.close, bndFloat64.close, bndUint64.close]

/-- Witness for C7 at a concrete bound binder whose pool hand-back
panics. -/
theorem binder_close_clears_backref_witness :
    ((⟨some 5, true⟩ : bndFloat64).close (.panicWith "pool failure")).pooledBnd.stmt
        = none ∧
    ((⟨some 5, true⟩ : bndFloat64).close (.panicWith "pool failure")).ret
        = some (.recovered "pool failure") := by
  have h := (binder_close_clears_backref 5 (.panicWith "pool failure")).2.2.1
    ⟨some 5, true⟩ rfl
  exact ⟨h.1, h.2.2.1 "pool failure" rfl⟩

/-- C8: each `bind` records the statement; the numeric variants first run
the native conversion with the variant-specific byte width (4 for
bndFloat32, 8 for bndFloat64, 8 with the unsigned flag for bndUint64) and
return the native error on conversion failure; then the binder registers
the native number (tag `SQLT_VNU`) — or, for bndBin, the raw bytes (tag
`SQLT_LBI`) — at the given position on the statement handle, returning
the wrapped native error text on a native failure and nil otherwise. -/
theorem binder_bind_contract (pos stmtId : Nat) (o : BindOracle) :
    (∀ b : bndFloat32,
      (∀ m, o.numConvErr = some m →
        b.bind pos stmtId o =
          ⟨.err (.native m), { b with stmt := some stmtId }, [.numberFromReal 4]⟩) ∧
      (∀ m, o.numConvErr = none → o.bindErr = some m →
        b.bind pos stmtId o =
          ⟨.err (.native m), { b with stmt := some stmtId },
            [.numberFromReal 4, .bindByPos pos .SQLT_VNU]⟩) ∧
      (o.numConvErr = none → o.bindErr = none →
        b.bind pos stmtId o =
          ⟨.ok, { b with stmt := some stmtId },
            [.numberFromReal 4, .bindByPos pos .SQLT_VNU]⟩)) ∧
    (∀ b : bndFloat64,
      (∀ m, o.numConvErr = some m →
        b.bind pos stmtId o =
          ⟨.err (.native m), { b with stmt := some stmtId }, [.numberFromReal 8]⟩) ∧
      (∀ m, o.numConvErr = none → o.bindErr = some m →
        b.bind pos stmtId o =
          ⟨.err (.native m), { b with stmt := some stmtId },
            [.numberFromReal 8, .bindByPos pos .SQLT_VNU]⟩) ∧
      (o.numConvErr = none → o.bindErr = none →
        b.bind pos stmtId o =
          ⟨.ok, { b with stmt := some stmtId },
            [.numberFromReal 8, .bindByPos pos .SQLT_VNU]⟩)) ∧
    (∀ b : bndUint64,
      (∀ m, o.numConvErr = some m →
        b.bind pos stmtId o =
          ⟨.err (.native m), { b with stmt := some stmtId },
            [.numberFromInt 8 true]⟩) ∧
      (∀ m, o.numConvErr = none → o.bindErr = some m →
        b.bind pos stmtId o =
          ⟨.err (.native m), { b with stmt := some stmtId },
            [.numberFromInt 8 true, .bindByPos pos .SQLT_VNU]⟩) ∧
      (o.numConvErr = none → o.bindErr = none →
        b.bind pos stmtId o =
          ⟨.ok, { b with stmt := some stmtId },
            [.numberFromInt 8 true, .bindByPos pos .SQLT_VNU]⟩)) ∧
    (∀ b : bndBin, ∀ value : List Nat, value ≠ [] →
      (∀ m, o.bindErr = some m →
        b.bind value pos stmtId o =
          ⟨.err (.native m), { b with stmt := some stmtId },
            [.bindByPos pos .SQLT_LBI]⟩) ∧
      (o.bindErr = none →
        b.bind value pos stmtId o =
          ⟨.ok, { b with stmt := some stmtId }, [.bindByPos pos .SQLT_LBI]⟩)) := by
  refine ⟨fun b => ⟨?_, ?_, ?_⟩, fun b => ⟨?_, ?_, ?_⟩, fun b => ⟨?_, ?_, ?_⟩,
    fun b value hv => ⟨?_, ?_⟩⟩ <;>
    intros <;>
      simp_all [bndFloat32.bind, bndFloat64.bind, bndUint64.bind, bndBin.bind,
        List.isEmpty_iff]

/-- Witness for C8: the bndFloat64 success path at position 3. -/
theorem binder_bind_contract_witness :
    (⟨none, false⟩ : bndFloat64).bind 3 9 ⟨none, none⟩ =
      ⟨.ok, ⟨some 9, false⟩, [.numberFromReal 8, .bindByPos 3 .SQLT_VNU]⟩ :=
  ((binder_bind_contract 3 9 ⟨none, none⟩).2.1 ⟨none, false⟩).2.2 rfl rfl

/-- C10: `bndBin.bind` requires a non-empty value slice: for a non-empty
slice the `value[0]` access is in bounds and `bind` never panics, but on
an empty slice evaluating `&value[0]` panics with index out of range
before any native call, and the panic is not recovered inside `bind`. -/
theorem bndBin_bind_empty_slice_panics (b : bndBin) (pos stmtId : Nat)
    (o : BindOracle) (value : List Nat) :
    (value = [] →
      b.bind value pos stmtId o =
        ⟨.panicked "index out of range", { b with stmt := some stmtId }, []⟩) ∧
    (value ≠ [] → 0 < value.length ∧
      ∀ m, (b.bind value pos stmtId o).ret ≠ .panicked m) := by
  constructor
  · intro h
    subst h
    simp [bndBin.bind]
  · intro h
    refine ⟨List.length_pos.mpr h, fun m => ?_⟩
    cases hbe : o.bindErr <;>
      simp [bndBin.bind, List.isEmpty_iff, h, hbe]

/-- Witness for C10: empty slice panics; the singleton slice `[7]` binds
without a panic. -/
theorem bndBin_bind_empty_slice_panics_witness :
    (⟨none, false⟩ : bndBin).bind [] 1 2 ⟨none, none⟩ =
      ⟨.panicked "index out of range", ⟨some 2, false⟩, []⟩ ∧
    ∀ m, ((⟨none, false⟩ : bndBin).bind [7] 1 2 ⟨none, none⟩).ret ≠ .panicked m :=
  ⟨(bndBin_bind_empty_slice_panics ⟨none, false⟩ 1 2 ⟨none, none⟩ []).1 rfl,
   ((bndBin_bind_empty_slice_panics ⟨none, false⟩ 1 2 ⟨none, none⟩ [7]).2
     (by decide)).2⟩

end Ora
